import Mathlib

/-!
Verification of the stocks-mcp-server repository.

This file contains a shallow embedding, in Lean 4, of the parts of the
Python code base that the verified properties talk about:

* `src/utils/companydict.py` (static identifier lookup table),
* `src/utils/gcpmanager.py` (`GCSManager.read_file` / `upload_file` /
  `list_files`, `BQManager.load_dataframe`),
* `src/utils/crawler/fnguide.py` (the FnGuide crawler: partitioned cache
  paths, legacy path resolution, multi-index table flattening, the broken
  `main_table_selectors` property, the cache / crawl decision logic),
* `src/utils/yahoofinance.py` (`Fundamentals.fundamentals` and
  `Market._format_response_from_df`),
* `src/utils/naverfinance.py` (`Market._format_response_from_df`),
* `src/fundamentals.py` (the `find_fnguide_data` MCP tool).

Python machinery is modelled explicitly: strings are Lean `String`s and the
Python `str` methods used by the code are re-implemented below over
`String.data`; an exception that a piece of code may raise is an `Except`
error value; calls into external services (HTTP, Google Cloud Storage,
BigQuery, yfinance) are oracle fields of an environment record, so that a
theorem quantifying over the environment covers every behaviour of the
external world.
-/

/-- Python exception classes that the embedded code can raise.  `other`
carries no payload; only the class of the exception matters for the
properties proved here. -/
inductive PyErr where
  | typeError
  | valueError
  | notFound
  | jsonDecodeError
  | other
deriving DecidableEq, Repr

/-- Python `s.lstrip("/")`: drop every leading `'/'` character. -/
def pyLstripSlash (s : String) : String :=
  ⟨s.data.dropWhile (fun c => c = '/')⟩

/-- Python `s.rstrip("/")`: drop every trailing `'/'` character. -/
def pyRstripSlash (s : String) : String :=
  ⟨((s.data.reverse.dropWhile (fun c => c = '/'))).reverse⟩

/-- Python `s.split(sep)` for a single-character separator `c`, on the
character list of the string.  As in Python, the result is never empty and
splitting the empty string yields `[[]]` (Python: `[""]`). -/
def pySplitChar (c : Char) : List Char → List (List Char)
  | [] => [[]]
  | x :: xs =>
    match pySplitChar c xs with
    | [] => [[x]]
    | h :: t => if x = c then [] :: h :: t else (x :: h) :: t

/-- Python `s.split("/")`, returning the segments as strings. -/
def pySplitSlash (s : String) : List String :=
  (pySplitChar '/' s.data).map (fun l => ⟨l⟩)

/-- Python `pre in s` restricted to prefix position: `s.startswith(pre)`. -/
def pyStartsWith (s pre : String) : Bool :=
  pre.data.isPrefixOf s.data

/-- Python `s.endswith(suf)`. -/
def pyEndsWith (s suf : String) : Bool :=
  suf.data.isSuffixOf s.data

/-- Python `pat in s` (substring containment). -/
def pyInStr (pat s : String) : Bool :=
  s.data.tails.any (fun t => pat.data.isPrefixOf t)

/-- One step of Python `s.replace(pat, rep)`: replace each leftmost,
non-overlapping occurrence of `pat`.  Recursion is driven by a fuel
argument so that the definition unfolds by kernel reduction; the callers
below always pass enough fuel (the length of the scanned list suffices,
because every step consumes at least one character when `pat` is
non-empty, and the repository only replaces non-empty patterns). -/
def pyReplaceAux (pat rep : List Char) : Nat → List Char → List Char
  | _, [] => []
  | 0, l => l
  | fuel + 1, x :: xs =>
    if pat ≠ [] ∧ pat.isPrefixOf (x :: xs) then
      rep ++ pyReplaceAux pat rep fuel ((x :: xs).drop pat.length)
    else
      x :: pyReplaceAux pat rep fuel xs

/-- Python `s.replace(pat, rep)` for non-empty `pat`. -/
def pyReplace (s pat rep : String) : String :=
  ⟨pyReplaceAux pat.data rep.data s.data.length s.data⟩

/-- Python `s.split(sep, 1)[1]` for `sep = "="`: everything after the
first `'='`.  The repository only evaluates this under a guard that
ensures a `'='` is present. -/
def pyAfterFirstEq (s : String) : String :=
  ⟨(s.data.dropWhile (fun c => c ≠ '=')).tail⟩

/-- Python `s.strip()`: remove leading and trailing whitespace. -/
def pyStrip (s : String) : String :=
  ⟨((s.data.dropWhile Char.isWhitespace).reverse.dropWhile
      Char.isWhitespace).reverse⟩

/-- Python `sep.join(parts)`. -/
def pyJoin (sep : String) (parts : List String) : String :=
  ⟨List.intercalate sep.data (parts.map String.data)⟩

/-- Python `s.upper()` (ASCII case mapping; the tickers and table names
this is applied to are ASCII). -/
def pyUpper (s : String) : String :=
  ⟨s.data.map Char.toUpper⟩

/-- Python `s.isdigit()` (ASCII digits; the inputs compared against are
six-digit Korean stock codes). -/
def pyIsDigit (s : String) : Bool :=
  s ≠ "" && s.data.all Char.isDigit

/-- Truthiness of an optional Python string (`None` and `""` are falsy). -/
def pyTruthy : Option String → Bool
  | none => false
  | some s => s ≠ ""

/-!
### `src/utils/companydict.py`

The static lookup table mapping company aliases to trading codes and
Yahoo tickers.  Python iterates `temp_dict.values()` in insertion order,
so the table is embedded as a list of entries in source order.
-/

/-- One value of `companydict.temp_dict`. -/
structure CompanyEntry where
  company : List String
  code : String
  ticker : String
deriving DecidableEq, Repr

/-- `companydict.temp_dict.values()` in insertion (source) order. -/
def companydict.temp_dict : List CompanyEntry :=
  [ ⟨["삼성전자", "삼전", "SEC", "SAMSUNG", "samsung", "Samsung",
      "Samsung Electronics", "005930", "005930.KS", "005930.ks"],
     "005930", "005930.KS"⟩,
    ⟨["SK하이닉스", "sk하이닉스", "하이닉스", "000660", "000660.KS",
      "000660.ks"], "000660", "000660.KS"⟩,
    ⟨["현대차", "현대자동차", "005380", "005380.KS", "005380.ks"],
     "005380", "005380.KS"⟩,
    ⟨["NAVER", "naver", "Naver", "네이버", "035420", "035420.KS",
      "035420.ks"], "035420", "035420.KS"⟩,
    ⟨["셀트리온", "068270", "068270.KS", "068270.ks"],
     "068270", "068270.KS"⟩,
    ⟨["AAPL", "Apple", "apple", "Apple Inc", "애플"], "AAPL", "AAPL"⟩,
    ⟨["TSLA", "Tesla", "tesla", "Tesla Inc", "테슬라"], "TSLA", "TSLA"⟩,
    ⟨["GOOGL", "Google", "google", "Alphabet", "alphabet", "구글"],
     "GOOGL", "GOOGL"⟩,
    ⟨["MSFT", "Microsoft", "microsoft", "마이크로소프트"], "MSFT", "MSFT"⟩,
    ⟨["PLTR", "Palantir", "palantir", "팔란티어"], "PLTR", "PLTR"⟩ ]

/-- `companydict.get_code`: scan the table in order and return the `code`
field of the first entry whose alias list contains the input. -/
def companydict.get_code (user_input : String) : Option String :=
  go companydict.temp_dict
where
  go : List CompanyEntry → Option String
    | [] => none
    | e :: rest => if user_input ∈ e.company then some e.code else go rest

/-- `companydict.get_ticker`: same scan, returning the `ticker` field. -/
def companydict.get_ticker (user_input : String) : Option String :=
  go companydict.temp_dict
where
  go : List CompanyEntry → Option String
    | [] => none
    | e :: rest => if user_input ∈ e.company then some e.ticker else go rest

/-- `companydict.get_company`: same scan, returning the first alias. -/
def companydict.get_company (user_input : String) : Option String :=
  go companydict.temp_dict
where
  go : List CompanyEntry → Option String
    | [] => none
    | e :: rest =>
      if user_input ∈ e.company then e.company.head? else go rest

/-- The entry that resolves an input: the first entry (in dictionary
order) whose alias list contains the input. -/
def companydict.matchEntry (user_input : String) : Option CompanyEntry :=
  companydict.temp_dict.find? (fun e => user_input ∈ e.company)

theorem companydict.get_code_go_eq (user_input : String) :
    ∀ l : List CompanyEntry,
      companydict.get_code.go user_input l =
        (l.find? (fun e => user_input ∈ e.company)).map (fun e => e.code) := by
  intro l
  induction l with
  | nil => rfl
  | cons e rest ih =>
    by_cases h : user_input ∈ e.company
    · simp [companydict.get_code.go, h, List.find?]
    · simp [companydict.get_code.go, h, List.find?, ih]

theorem companydict.get_ticker_go_eq (user_input : String) :
    ∀ l : List CompanyEntry,
      companydict.get_ticker.go user_input l =
        (l.find? (fun e => user_input ∈ e.company)).map (fun e => e.ticker) := by
  intro l
  induction l with
  | nil => rfl
  | cons e rest ih =>
    by_cases h : user_input ∈ e.company
    · simp [companydict.get_ticker.go, h, List.find?]
    · simp [companydict.get_ticker.go, h, List.find?, ih]

/-- C8: identifier resolution via the static lookup table.  `get_code`
returns the `code` field of the first entry, in dictionary order, whose
alias list contains the input exactly (and `None` otherwise);
`get_ticker` behaves identically for the `ticker` field; an input on
which `get_code` returns `None` also makes `get_ticker` return `None`;
and when both resolve, they are resolved by the same entry. -/
theorem companydict_lookup_resolution (user_input : String) :
    companydict.get_code user_input =
      (companydict.matchEntry user_input).map (fun e => e.code)
    ∧ companydict.get_ticker user_input =
      (companydict.matchEntry user_input).map (fun e => e.ticker)
    ∧ (companydict.get_code user_input = none →
        companydict.get_ticker user_input = none)
    ∧ ((companydict.get_code user_input).isSome →
        ∃ e, companydict.matchEntry user_input = some e
          ∧ companydict.get_code user_input = some e.code
          ∧ companydict.get_ticker user_input = some e.ticker) := by
  have hc : companydict.get_code user_input =
      (companydict.matchEntry user_input).map (fun e => e.code) :=
    companydict.get_code_go_eq user_input companydict.temp_dict
  have ht : companydict.get_ticker user_input =
      (companydict.matchEntry user_input).map (fun e => e.ticker) :=
    companydict.get_ticker_go_eq user_input companydict.temp_dict
  refine ⟨hc, ht, ?_, ?_⟩
  · intro hnone
    rw [ht]
    rw [hc] at hnone
    cases h : companydict.matchEntry user_input with
    | none => rfl
    | some e => rw [h] at hnone; simp at hnone
  · intro hsome
    rw [hc] at hsome
    cases h : companydict.matchEntry user_input with
    | none => rw [h] at hsome; simp at hsome
    | some e =>
      refine ⟨e, rfl, ?_, ?_⟩
      · rw [hc, h]; rfl
      · rw [ht, h]; rfl

/-- Witness for C8 at the concrete input `"Apple"`, which the table
resolves to code and ticker `"AAPL"` by the same entry. -/
theorem companydict_lookup_resolution_witness :
    (companydict.get_code "Apple").isSome = true
    ∧ ∃ e, companydict.matchEntry "Apple" = some e
        ∧ companydict.get_code "Apple" = some e.code
        ∧ companydict.get_ticker "Apple" = some e.ticker :=
  ⟨by decide, (companydict_lookup_resolution "Apple").2.2.2 (by decide)⟩

/-!
### `src/utils/gcpmanager.py` — `GCSManager`

The Google Cloud Storage client wrapper.  The state of the external
service is a record: `blobs` is the object store (name to text content),
while `bucketRaises` / `downloadRaises` / `uploadRaises` / `listBlobs`
model the vendor SDK calls that may raise, so theorems over a `GCSState`
cover every behaviour of the service.
-/

/-- The environment of a `GCSManager` instance: the `_storage_available`
flag plus the observable behaviour of the storage service. -/
structure GCSState where
  available : Bool
  bucketRaises : Bool
  blobs : List (String × String)
  downloadRaises : String → Bool
  uploadRaises : Bool
  listBlobs : Option String → Except PyErr (List (String × Nat))

/-- `GCSManager._normalize_blob_name`: strip leading `'/'`. -/
def GCSManager._normalize_blob_name (name : String) : String :=
  pyLstripSlash name

/-- `blob.download_as_text()`: raises on a transient failure, raises
NotFound when the blob does not exist, otherwise returns the content. -/
def gcsDownload (st : GCSState) (name : String) : Except PyErr String :=
  if st.downloadRaises name then .error .other
  else
    match st.blobs.lookup name with
    | some content => .ok content
    | none => .error .notFound

/-- The candidate loop of `GCSManager.read_file`: try each candidate
name, swallowing the exception of a failed download (`except: continue`),
and return `None` when every candidate fails. -/
def readFileLoop (st : GCSState) : List String → Option String
  | [] => none
  | n :: rest =>
    match gcsDownload st n with
    | .ok c => some c
    | .error _ => readFileLoop st rest

/-- `GCSManager.read_file`: returns `None` when the client is disabled,
tries the name as given and then its slash-stripped form, and converts
every failure to `None` (the outer `try`/`except` catches, among others,
a raising `bucket()` call).  The `Except` in the result type records
whether an exception escapes the method; no code path produces
`.error`. -/
def GCSManager.read_file (st : GCSState) (blob_name : String) :
    Except PyErr (Option String) :=
  if !st.available then .ok none
  else if st.bucketRaises then .ok none
  else
    let normalized := GCSManager._normalize_blob_name blob_name
    let candidates :=
      blob_name :: (if normalized ≠ "" ∧ normalized ≠ blob_name
                    then [normalized] else [])
    .ok (readFileLoop st candidates)

/-- Result of `GCSManager.upload_file`: the updated service state and the
boolean the method returns. -/
structure UploadResult where
  state : GCSState
  ok : Bool

/-- `GCSManager.upload_file` for a string payload: the destination name
is slash-stripped (keeping the original name when stripping yields the
empty string); on success the object store gains the blob under that
name (a fresh entry at the front shadows any previous entry, modelling
overwrite); every failure returns `False`. -/
def GCSManager.upload_file (st : GCSState) (source_file : String)
    (destination_blob_name : String) : UploadResult :=
  let normalized0 := GCSManager._normalize_blob_name destination_blob_name
  let normalized :=
    if normalized0 = "" then destination_blob_name else normalized0
  if !st.available then ⟨st, false⟩
  else if st.bucketRaises then ⟨st, false⟩
  else if st.uploadRaises then ⟨st, false⟩
  else ⟨{ st with blobs := (normalized, source_file) :: st.blobs }, true⟩

/-- The prefixes `GCSManager.list_files` queries: the folder as given
plus its slash-stripped form when different; `None` (no prefix) when the
folder argument is falsy. -/
def listFilesPrefixes (folder_name : Option String) : List (Option String) :=
  match folder_name with
  | some f =>
    if f ≠ "" then
      let normalized := GCSManager._normalize_blob_name f
      (some f) :: (if normalized ≠ "" ∧ normalized ≠ f
                   then [some normalized] else [])
    else [none]
  | none => [none]

/-- The listing loop of `GCSManager.list_files`: query each prefix in
order, concatenating the results; the first raising query aborts the
whole `try` block. -/
def gatherBlobs (st : GCSState) : List (Option String) →
    Except PyErr (List (String × Nat))
  | [] => .ok []
  | p :: rest =>
    match st.listBlobs p with
    | .error e => .error e
    | .ok l =>
      match gatherBlobs st rest with
      | .error e => .error e
      | .ok tail => .ok (l ++ tail)

/-- The `seen`-set deduplication of `GCSManager.list_files`: keep the
first occurrence of each blob name. -/
def dedupBlobs : List (String × Nat) → List String → List (String × Nat)
  | [], _ => []
  | b :: bs, seen =>
    if b.1 ∈ seen then dedupBlobs bs seen
    else b :: dedupBlobs bs (b.1 :: seen)

/-- Sorting by `time_created`, newest first (`blob_list.sort(key=...,
reverse=True)`), as an insertion sort. -/
def insertByTimeDesc (b : String × Nat) :
    List (String × Nat) → List (String × Nat)
  | [] => [b]
  | x :: xs => if b.2 ≥ x.2 then b :: x :: xs else x :: insertByTimeDesc b xs

def sortByTimeDesc (l : List (String × Nat)) : List (String × Nat) :=
  l.foldr insertByTimeDesc []

/-- `GCSManager.list_files`: returns `[]` when the client is disabled and
whenever the listing raises; otherwise returns the deduplicated (and
optionally time-sorted) blob names. -/
def GCSManager.list_files (st : GCSState) (folder_name : Option String)
    (sort_by_time : Bool) : List String :=
  if !st.available then []
  else
    match gatherBlobs st (listFilesPrefixes folder_name) with
    | .error _ => []
    | .ok blobs =>
      let blob_list := dedupBlobs blobs []
      let blob_list :=
        if sort_by_time ∧ blob_list ≠ [] then sortByTimeDesc blob_list
        else blob_list
      blob_list.map (fun b => b.1)

/-- `read_file` on an enabled client with a working `bucket()` call is
the candidate loop over the verbatim and slash-stripped names. -/
theorem read_file_enabled (st : GCSState) (hav : st.available = true)
    (hbk : st.bucketRaises = false) (n : String) :
    GCSManager.read_file st n =
      Except.ok (readFileLoop st
        (n :: (if GCSManager._normalize_blob_name n ≠ ""
                  ∧ GCSManager._normalize_blob_name n ≠ n
               then [GCSManager._normalize_blob_name n] else []))) := by
  unfold GCSManager.read_file
  rw [hav, hbk]
  rfl

/-- A candidate whose download succeeds ends the loop. -/
theorem readFileLoop_found (st : GCSState) (n : String)
    (rest : List String) (c : String)
    (hdl : st.downloadRaises n = false)
    (hlk : st.blobs.lookup n = some c) :
    readFileLoop st (n :: rest) = some c := by
  simp [readFileLoop, gcsDownload, hdl, hlk]

/-- A candidate that is not in the store is skipped. -/
theorem readFileLoop_miss (st : GCSState) (n : String)
    (rest : List String)
    (hdl : st.downloadRaises n = false)
    (hlk : st.blobs.lookup n = none) :
    readFileLoop st (n :: rest) = readFileLoop st rest := by
  simp [readFileLoop, gcsDownload, hdl, hlk]

/-- C9: blob-name normalization round-trip.  A successful `upload_file`
stores the object under the slash-stripped destination name, and a
`read_file` of any spelling of the same name (with or without leading
slashes) afterwards succeeds. -/
theorem gcs_blob_name_roundtrip (st : GCSState) (payload u r : String)
    (hav : st.available = true) (hbk : st.bucketRaises = false)
    (hup : st.uploadRaises = false)
    (hspell : pyLstripSlash u = pyLstripSlash r)
    (hne : pyLstripSlash u ≠ "")
    (hdl1 : st.downloadRaises r = false)
    (hdl2 : st.downloadRaises (pyLstripSlash r) = false) :
    (GCSManager.upload_file st payload u).ok = true
    ∧ (GCSManager.upload_file st payload u).state.blobs =
        (pyLstripSlash u, payload) :: st.blobs
    ∧ ∃ c, GCSManager.read_file (GCSManager.upload_file st payload u).state r
        = Except.ok (some c) := by
  have hstrip : GCSManager._normalize_blob_name u = pyLstripSlash u := rfl
  have hupload :
      GCSManager.upload_file st payload u =
        ⟨{ st with blobs := (pyLstripSlash u, payload) :: st.blobs }, true⟩ := by
    unfold GCSManager.upload_file
    rw [hstrip]
    simp [hav, hbk, hup, hne]
  refine ⟨by rw [hupload], by rw [hupload], ?_⟩
  rw [hupload]
  set st2 : GCSState := { st with blobs := (pyLstripSlash u, payload) :: st.blobs }
    with hst2
  have hav2 : st2.available = true := hav
  have hbk2 : st2.bucketRaises = false := hbk
  have hdlr : st2.downloadRaises r = false := hdl1
  have hdls : st2.downloadRaises (pyLstripSlash u) = false := by
    show st.downloadRaises (pyLstripSlash u) = false
    rw [hspell]; exact hdl2
  rw [read_file_enabled st2 hav2 hbk2]
  have hn : GCSManager._normalize_blob_name r = pyLstripSlash u := by
    show pyLstripSlash r = pyLstripSlash u
    exact hspell.symm
  by_cases hcase : r = pyLstripSlash u
  · -- the name read back is already in stripped form: the first
    -- candidate hits the freshly uploaded blob
    refine ⟨payload, ?_⟩
    rw [readFileLoop_found st2 r _ payload hdlr (by
      show List.lookup r ((pyLstripSlash u, payload) :: st.blobs) = some payload
      subst hcase; simp [List.lookup])]
  · -- the read spelling differs from the stripped form; the second
    -- candidate is the stripped name, which hits the uploaded blob
    -- (unless the verbatim spelling already names another blob, which
    -- also succeeds)
    rw [hn, if_pos ⟨hne, fun h => hcase h.symm⟩]
    cases hlk : List.lookup r ((pyLstripSlash u, payload) :: st.blobs) with
    | some c =>
      exact ⟨c, by rw [readFileLoop_found st2 r _ c hdlr hlk]⟩
    | none =>
      refine ⟨payload, ?_⟩
      rw [readFileLoop_miss st2 r _ hdlr hlk,
        readFileLoop_found st2 (pyLstripSlash u) _ payload hdls
          (by show List.lookup (pyLstripSlash u)
                ((pyLstripSlash u, payload) :: st.blobs) = some payload
              simp [List.lookup])]

/-- A concrete storage state for witnesses: client available, no
transient failures, empty store. -/
def demoGCSState : GCSState :=
  { available := true, bucketRaises := false, blobs := []
    downloadRaises := fun _ => false, uploadRaises := false
    listBlobs := fun _ => Except.ok [] }

/-- Witness for C9: upload under `"/foo.json"`, read back as
`"foo.json"`. -/
theorem gcs_blob_name_roundtrip_witness :
    pyLstripSlash "/foo.json" ≠ ""
    ∧ (GCSManager.upload_file demoGCSState "x" "/foo.json").ok = true
    ∧ (GCSManager.upload_file demoGCSState "x" "/foo.json").state.blobs =
        (pyLstripSlash "/foo.json", "x") :: demoGCSState.blobs
    ∧ ∃ c, GCSManager.read_file
        (GCSManager.upload_file demoGCSState "x" "/foo.json").state "foo.json"
        = Except.ok (some c) := by
  refine ⟨by decide, ?_⟩
  exact gcs_blob_name_roundtrip demoGCSState "x" "/foo.json" "foo.json"
    rfl rfl rfl (by decide) (by decide) rfl rfl

/-!
### `src/utils/gcpmanager.py` — `BQManager.load_dataframe`

A DataFrame row is an association list from column name to cell value
(the cell type `α` is abstract; only equality of values matters for
deduplication).  The BigQuery service is an environment record: whether
the client initialized, whether the destination table exists, the result
of the `SELECT DISTINCT` deduplication query, and whether the load job
succeeds.
-/

/-- A DataFrame row: column name to cell value. -/
def BQRow (α : Type) : Type := List (String × α)

/-- The BigQuery environment seen by one `load_dataframe` call. -/
structure BQEnv (α : Type) where
  clientOk : Bool
  tableExists : Bool
  distinctKeysQuery : Except PyErr (List (List (Option α)))
  loadJobOk : Bool

/-- Outcome of `load_dataframe`: the rows submitted to the load job and
the boolean the method returns. -/
structure LoadOutcome (α : Type) where
  loaded : List (BQRow α)
  ret : Bool

/-- `df[deduplicate_on].apply(tuple, axis=1)` for one row: the tuple of
the row's values in the `deduplicate_on` columns. -/
def rowKey {α : Type} (deduplicate_on : List String) (r : BQRow α) :
    List (Option α) :=
  deduplicate_on.map (fun c => r.lookup c)

/-- The final `load_table_from_dataframe` step: submit the rows, return
the job result. -/
def submitLoadJob {α : Type} (env : BQEnv α) (df : List (BQRow α)) :
    LoadOutcome α :=
  ⟨df, env.loadJobOk⟩

/-- Python truthiness of an optional list (`None` and `[]` are falsy). -/
def optListTruthy {β : Type} : Option (List β) → Bool
  | none => false
  | some l => !l.isEmpty

/-- `BQManager.load_dataframe`.  When the destination table exists,
`deduplicate_on` is a truthy column list and `if_exists` is `"append"`:
an empty DataFrame is skipped (returning `True`); otherwise the distinct
key tuples of the existing table are queried and the rows whose key
tuple already occurs are dropped; if nothing remains the load is skipped
(returning `True`); a failing deduplication query skips deduplication
and loads everything. -/
def BQManager.load_dataframe {α : Type} [DecidableEq α] (env : BQEnv α)
    (df : List (BQRow α)) (if_exists : String)
    (deduplicate_on : Option (List String)) : LoadOutcome α :=
  if !env.clientOk then ⟨[], false⟩
  else if env.tableExists && optListTruthy deduplicate_on
      && (if_exists == "append") then
    if df.isEmpty then ⟨[], true⟩
    else
      match env.distinctKeysQuery with
      | .ok existing_data_keys =>
        let ks := deduplicate_on.getD []
        let df_to_load :=
          df.filter (fun r => decide (rowKey ks r ∉ existing_data_keys))
        if df_to_load.isEmpty then ⟨[], true⟩
        else submitLoadJob env df_to_load
      | .error _ => submitLoadJob env df
  else submitLoadJob env df

/-- C4: column-based deduplication before a warehouse append.  With
`if_exists="append"`, a non-empty `deduplicate_on` list and an existing
destination table whose distinct key query succeeds, every input row
whose key tuple already occurs among the existing keys is removed before
the append — no row with an already-present key is submitted to the
load job, the submitted rows are exactly the input filtered to fresh
keys, and when every row is a duplicate nothing is loaded and the call
returns `True`. -/
theorem bq_load_dataframe_dedup {α : Type} [DecidableEq α] (env : BQEnv α)
    (df : List (BQRow α)) (ks : List String)
    (existing : List (List (Option α)))
    (hclient : env.clientOk = true)
    (htable : env.tableExists = true)
    (hks : ks ≠ [])
    (hquery : env.distinctKeysQuery = Except.ok existing) :
    (∀ r ∈ (BQManager.load_dataframe env df "append" (some ks)).loaded,
        rowKey ks r ∉ existing)
    ∧ (BQManager.load_dataframe env df "append" (some ks)).loaded =
        df.filter (fun r => decide (rowKey ks r ∉ existing))
    ∧ ((∀ r ∈ df, rowKey ks r ∈ existing) →
        (BQManager.load_dataframe env df "append" (some ks)).loaded = []
        ∧ (BQManager.load_dataframe env df "append" (some ks)).ret = true) := by
  have hks' : ks.isEmpty = false := by
    cases ks with
    | nil => exact absurd rfl hks
    | cons a l => rfl
  have hmain : BQManager.load_dataframe env df "append" (some ks) =
      (if (df.filter (fun r => decide (rowKey ks r ∉ existing))).isEmpty
       then ⟨[], true⟩
       else submitLoadJob env
         (df.filter (fun r => decide (rowKey ks r ∉ existing)))) := by
    unfold BQManager.load_dataframe
    rw [hclient, hquery]
    cases hdf : df.isEmpty with
    | true =>
      have hnil : df = [] := List.isEmpty_iff.mp hdf
      subst hnil
      simp [htable, hks', optListTruthy]
    | false =>
      simp [htable, hks', hdf, optListTruthy]
  constructor
  · intro r hr
    rw [hmain] at hr
    by_cases hfil : (df.filter (fun r => decide (rowKey ks r ∉ existing))).isEmpty
    · rw [if_pos hfil] at hr
      exact absurd hr (by simp)
    · rw [if_neg hfil] at hr
      have := List.of_mem_filter hr
      simpa using this
  constructor
  · rw [hmain]
    by_cases hfil : (df.filter (fun r => decide (rowKey ks r ∉ existing))).isEmpty
    · rw [if_pos hfil]
      have : df.filter (fun r => decide (rowKey ks r ∉ existing)) = [] := by
        exact List.isEmpty_iff.mp hfil
      rw [this]
    · rw [if_neg hfil]
      rfl
  · intro hallDup
    have hfil : df.filter (fun r => decide (rowKey ks r ∉ existing)) = [] := by
      apply List.filter_eq_nil_iff.mpr
      intro r hr
      simpa using hallDup r hr
    rw [hmain, hfil]
    exact ⟨rfl, rfl⟩

/-- Witness for C4: a two-row frame where both rows' key tuples already
occur in the existing table, so nothing is loaded and the call returns
`True`. -/
theorem bq_load_dataframe_dedup_witness :
    (({ clientOk := true, tableExists := true
        distinctKeysQuery := Except.ok [[some 1], [some 2]]
        loadJobOk := true } : BQEnv Nat).clientOk = true)
    ∧ (∀ r ∈ ([[("date", 1), ("v", 7)], [("date", 2), ("v", 8)]] :
          List (BQRow Nat)),
        rowKey ["date"] r ∈ [[some 1], [some 2]])
    ∧ (BQManager.load_dataframe
        ({ clientOk := true, tableExists := true
           distinctKeysQuery := Except.ok [[some 1], [some 2]]
           loadJobOk := true } : BQEnv Nat)
        [[("date", 1), ("v", 7)], [("date", 2), ("v", 8)]]
        "append" (some ["date"])).loaded = []
    ∧ (BQManager.load_dataframe
        ({ clientOk := true, tableExists := true
           distinctKeysQuery := Except.ok [[some 1], [some 2]]
           loadJobOk := true } : BQEnv Nat)
        [[("date", 1), ("v", 7)], [("date", 2), ("v", 8)]]
        "append" (some ["date"])).ret = true := by
  refine ⟨rfl, by decide, ?_⟩
  exact (bq_load_dataframe_dedup
    ({ clientOk := true, tableExists := true
       distinctKeysQuery := Except.ok [[some 1], [some 2]]
       loadJobOk := true } : BQEnv Nat)
    [[("date", 1), ("v", 7)], [("date", 2), ("v", 8)]]
    ["date"] [[some 1], [some 2]]
    rfl rfl (by decide) rfl).2.2 (by decide)

/-!
### `src/utils/crawler/fnguide.py` — multi-index table reconstruction

`FnGuideCrawler._flatten_column_key` and
`FnGuideCrawler._dataframe_to_records`.  A pandas DataFrame is embedded
as a list of column keys (a multi-index column is a tuple of levels,
each level a string or `None`) together with rows, each row carrying its
stringified index label and its cell values (the FnGuide frames hold the
stripped text of table cells).  A produced record is an association list
in insertion order, mirroring a Python dict.
-/

/-- A pandas column key: a multi-index tuple of levels, or a scalar
label (`None` or a string). -/
inductive ColKey where
  | tup : List (Option String) → ColKey
  | scalar : Option String → ColKey
deriving DecidableEq

/-- A record produced from one DataFrame row: a Python dict in insertion
order. -/
abbrev FnRecord := List (String × String)

/-- A pandas DataFrame, reduced to what `_dataframe_to_records` reads:
the column keys and the rows (stringified index label, cell values).
In pandas each row has exactly one value per column. -/
structure PandasFrame where
  cols : List ColKey
  rows : List (String × List String)
deriving DecidableEq

/-- pandas `frame.empty`: true when either axis has length zero. -/
def frameEmpty (f : PandasFrame) : Bool :=
  f.rows.isEmpty || f.cols.isEmpty

/-- `FnGuideCrawler._flatten_column_key`: for a tuple column, keep the
parts that are neither `None` nor `""`, strip each, and join with
`" / "`; a scalar is stripped; a key that comes out empty becomes
`"value"` (`return key or "value"`). -/
def FnGuideCrawler._flatten_column_key : ColKey → String
  | .tup column =>
    let parts := (column.filter (fun p => decide (p ≠ none ∧ p ≠ some ""))).map
      (fun p => pyStrip (p.getD ""))
    let key := pyJoin " / " parts
    if key = "" then "value" else key
  | .scalar none => "value"
  | .scalar (some s) =>
    let key := pyStrip s
    if key = "" then "value" else key

/-- Lower bound for the fuel-driven decimal printer: a number at least
`10 ^ k` prints with more than `k` characters (given enough fuel). -/
theorem toDigitsCore_length_lower :
    ∀ (f k n : Nat), 10 ^ k ≤ n → k < f →
      k + 1 ≤ (Nat.toDigitsCore 10 f n []).length := by
  intro f
  induction f with
  | zero => intro k n _ hk; exact absurd hk (Nat.not_lt_zero k)
  | succ f ih =>
    intro k n hpow _
    cases k with
    | zero =>
      simp only [Nat.toDigitsCore]
      by_cases hdiv : n / 10 = 0
      · simp [hdiv]
      · simp only [hdiv, if_false]
        rw [Nat.toDigitsCore_lens_eq]
        omega
    | succ j =>
      have hn10 : 10 ≤ n := by
        calc (10:Nat) = 10 ^ 1 := (pow_one 10).symm
        _ ≤ 10 ^ (j+1) := Nat.pow_le_pow_right (by norm_num) (by omega)
        _ ≤ n := hpow
      have hdiv : n / 10 ≠ 0 := by
        intro h
        have h2 : n < 10 := (Nat.div_eq_zero_iff (by norm_num)).mp h
        omega
      have hquot : 10 ^ j ≤ n / 10 := by
        rw [Nat.le_div_iff_mul_le (by norm_num : 0 < 10)]
        calc 10 ^ j * 10 = 10 ^ (j+1) := (pow_succ 10 j).symm
        _ ≤ n := hpow
      have hjf : j < f := by omega
      simp only [Nat.toDigitsCore, hdiv, if_false]
      rw [Nat.toDigitsCore_lens_eq]
      have := ih j (n / 10) hquot hjf
      omega

/-- `Nat.repr n` has more than `k` characters once `n ≥ 10 ^ k`; decimal
representations are therefore unbounded in length. -/
theorem repr_length_lower (k n : Nat) (h : 10 ^ k ≤ n) :
    k + 1 ≤ (Nat.repr n).length := by
  have hk : k < n + 1 := by
    have : k < 10 ^ k := Nat.lt_pow_self (by norm_num) k
    omega
  have := toDigitsCore_length_lower (n+1) k n h hk
  simpa [Nat.repr, Nat.toDigits, String.length, List.asString] using this

/-- Every member of a string list is bounded by the folded maximum of
the lengths. -/
theorem length_le_foldr_max (keys : List String) (s : String)
    (h : s ∈ keys) :
    s.length ≤ (keys.map String.length).foldr Nat.max 0 := by
  induction keys with
  | nil => cases h
  | cons a l ih =>
    rcases List.mem_cons.mp h with h | h
    · subst h
      exact Nat.le_max_left _ _
    · exact le_trans (ih h) (Nat.le_max_right _ _)

/-- The suffix-search loop of `_dataframe_to_records` terminates: some
suffix `m + 2` yields a key absent from the record, because a large
enough suffix makes the candidate longer than every present key. -/
theorem exists_fresh_suffix (keys : List String) (key : String) :
    ∃ m : Nat, (key ++ "_" ++ Nat.repr (m + 2)) ∉ keys := by
  refine ⟨10 ^ ((keys.map String.length).foldr Nat.max 0 + 1), ?_⟩
  intro hmem
  have hbound := length_le_foldr_max keys _ hmem
  have hrepr := repr_length_lower
    ((keys.map String.length).foldr Nat.max 0 + 1)
    (10 ^ ((keys.map String.length).foldr Nat.max 0 + 1) + 2) (by omega)
  have hu : ("_" : String).length = 1 := rfl
  have hlen : (key ++ "_" ++
      Nat.repr (10 ^ ((keys.map String.length).foldr Nat.max 0 + 1) + 2)).length
      = key.length + 1 +
        (Nat.repr (10 ^ ((keys.map String.length).foldr Nat.max 0 + 1) + 2)).length := by
    rw [String.length_append, String.length_append, hu]
  omega

/-- The `while new_key in record` loop of `_dataframe_to_records`: the
least suffix `≥ 2` whose suffixed key is not yet a key of the record. -/
def freshSuffix (record : FnRecord) (key : String) : Nat :=
  Nat.find (exists_fresh_suffix (record.map Prod.fst) key) + 2

/-- One `record[...] = value` insertion of `_dataframe_to_records`: a key
already present is stored under the first fresh `_2`, `_3`, … suffix. -/
def recordInsert (record : FnRecord) (key value : String) : FnRecord :=
  if key ∈ record.map Prod.fst then
    record ++ [(key ++ "_" ++ Nat.repr (freshSuffix record key), value)]
  else record ++ [(key, value)]

/-- The record built from one row: start from the `period` field (the
stringified row index), then insert each (flattened column, cell value)
pair in column order. -/
def rowToRecord (flattened_columns : List String) (index_label : String)
    (row_values : List String) : FnRecord :=
  (flattened_columns.zip row_values).foldl
    (fun record kv => recordInsert record kv.1 kv.2)
    [("period", index_label)]

/-- `FnGuideCrawler._dataframe_to_records`: the empty frame gives `[]`;
otherwise one record per row, in row order. -/
def FnGuideCrawler._dataframe_to_records (f : PandasFrame) :
    List FnRecord :=
  if frameEmpty f then []
  else
    let flattened := f.cols.map FnGuideCrawler._flatten_column_key
    f.rows.map (fun r => rowToRecord flattened r.1 r.2)

/-- How a record key relates to the flattened column key it came from:
either the key itself, or the key with a `_k` suffix, `k ≥ 2`. -/
def keyMatches (base actual : String) : Prop :=
  actual = base ∨ ∃ k, 2 ≤ k ∧ actual = base ++ "_" ++ Nat.repr k

/-- `recordInsert` appends exactly one entry, under a key that is fresh
for the record and relates to the requested key by `keyMatches`. -/
theorem recordInsert_key_fresh (record : FnRecord) (key value : String) :
    ∃ actual, recordInsert record key value = record ++ [(actual, value)]
      ∧ actual ∉ record.map Prod.fst
      ∧ keyMatches key actual := by
  unfold recordInsert
  by_cases h : key ∈ record.map Prod.fst
  · rw [if_pos h]
    refine ⟨_, rfl, ?_, Or.inr ⟨freshSuffix record key, ?_, rfl⟩⟩
    · unfold freshSuffix
      exact Nat.find_spec (exists_fresh_suffix (record.map Prod.fst) key)
    · unfold freshSuffix; omega
  · rw [if_neg h]
    exact ⟨key, rfl, h, Or.inl rfl⟩

/-- The insertion fold of `_dataframe_to_records`: starting from a
record with pairwise-distinct keys, the fold appends one entry per
(key, value) pair, each entry's key related to its column key by
`keyMatches`, and the keys of the result are pairwise distinct. -/
theorem foldl_recordInsert_spec :
    ∀ (kvs : List (String × String)) (record : FnRecord),
      (record.map Prod.fst).Nodup →
      ∃ tail,
        kvs.foldl (fun rec kv => recordInsert rec kv.1 kv.2) record
          = record ++ tail
        ∧ List.Forall₂ (fun kv entry =>
            keyMatches kv.1 entry.1 ∧ entry.2 = kv.2) kvs tail
        ∧ (((record ++ tail).map Prod.fst)).Nodup := by
  intro kvs
  induction kvs with
  | nil =>
    intro record h
    exact ⟨[], by simp, List.Forall₂.nil, by simpa⟩
  | cons kv rest ih =>
    intro record h
    obtain ⟨actual, heq, hfresh, hmatch⟩ :=
      recordInsert_key_fresh record kv.1 kv.2
    have hnodup2 : ((record ++ [(actual, kv.2)]).map Prod.fst).Nodup := by
      rw [List.map_append]
      have hmapone : List.map Prod.fst [(actual, kv.2)] = [actual] := rfl
      rw [hmapone]
      have hperm : ((record.map Prod.fst) ++ [actual]).Perm
          (actual :: record.map Prod.fst) :=
        (List.perm_append_singleton actual (record.map Prod.fst))
      rw [hperm.nodup_iff]
      exact List.nodup_cons.mpr ⟨hfresh, h⟩
    obtain ⟨tail, heq2, hforall, hnodup3⟩ :=
      ih (record ++ [(actual, kv.2)]) hnodup2
    refine ⟨(actual, kv.2) :: tail, ?_, ?_, ?_⟩
    · rw [List.foldl_cons, heq, heq2, List.append_assoc]
      rfl
    · exact List.Forall₂.cons ⟨hmatch, rfl⟩ hforall
    · rw [List.append_assoc] at hnodup3
      simpa using hnodup3

/-- C6: multi-index table reconstruction.  For a non-empty frame,
`_dataframe_to_records` returns one record per row in row order; each
record starts with a `"period"` entry holding the stringified row index;
the remaining entries correspond, in column order, to the (flattened
column key, cell value) pairs, where a repeated flattened key receives a
`_k` suffix (`k ≥ 2`); the keys of each record are pairwise distinct.
A tuple column key flattens by joining its non-`None`, non-empty parts
(after stripping) with `" / "`, an empty result becoming `"value"`; and
an empty frame yields `[]`. -/
theorem fnguide_dataframe_records (f : PandasFrame)
    (hne : frameEmpty f = false) :
    FnGuideCrawler._dataframe_to_records f =
      f.rows.map (fun r =>
        rowToRecord (f.cols.map FnGuideCrawler._flatten_column_key) r.1 r.2)
    ∧ (FnGuideCrawler._dataframe_to_records f).length = f.rows.length
    ∧ (∀ r ∈ f.rows, ∃ tail,
        rowToRecord (f.cols.map FnGuideCrawler._flatten_column_key) r.1 r.2
          = ("period", r.1) :: tail
        ∧ List.Forall₂ (fun kv entry =>
              keyMatches kv.1 entry.1 ∧ entry.2 = kv.2)
            ((f.cols.map FnGuideCrawler._flatten_column_key).zip r.2) tail
        ∧ tail.length =
            ((f.cols.map FnGuideCrawler._flatten_column_key).zip r.2).length
        ∧ ((("period", r.1) :: tail).map Prod.fst).Nodup)
    ∧ (∀ column, FnGuideCrawler._flatten_column_key (ColKey.tup column) =
        (if pyJoin " / "
            ((column.filter (fun p => decide (p ≠ none ∧ p ≠ some ""))).map
              (fun p => pyStrip (p.getD ""))) = ""
         then "value"
         else pyJoin " / "
            ((column.filter (fun p => decide (p ≠ none ∧ p ≠ some ""))).map
              (fun p => pyStrip (p.getD "")))))
    ∧ (∀ g : PandasFrame, frameEmpty g = true →
        FnGuideCrawler._dataframe_to_records g = []) := by
  have hdef : FnGuideCrawler._dataframe_to_records f =
      f.rows.map (fun r =>
        rowToRecord (f.cols.map FnGuideCrawler._flatten_column_key) r.1 r.2) := by
    unfold FnGuideCrawler._dataframe_to_records
    rw [hne]
    simp
  refine ⟨hdef, by rw [hdef]; exact List.length_map _ _, ?_, ?_, ?_⟩
  · intro r _
    have hstart : (([("period", r.1)] : FnRecord).map Prod.fst).Nodup := by
      simp
    obtain ⟨tail, heq, hforall, hnodup⟩ := foldl_recordInsert_spec
      ((f.cols.map FnGuideCrawler._flatten_column_key).zip r.2)
      [("period", r.1)] hstart
    refine ⟨tail, ?_, hforall, hforall.length_eq.symm, ?_⟩
    · unfold rowToRecord
      rw [heq]
      rfl
    · simpa using hnodup
  · intro column
    rfl
  · intro g hg
    unfold FnGuideCrawler._dataframe_to_records
    rw [hg]
    rfl

/-- Witness for C6: a one-row frame with two columns that flatten to the
same key `"a"`. -/
theorem fnguide_dataframe_records_witness :
    frameEmpty ⟨[ColKey.tup [some "a"], ColKey.tup [some "a"]],
        [("2024/12", ["1", "2"])]⟩ = false
    ∧ (FnGuideCrawler._dataframe_to_records
        ⟨[ColKey.tup [some "a"], ColKey.tup [some "a"]],
          [("2024/12", ["1", "2"])]⟩).length = 1 :=
  ⟨by decide,
    (fnguide_dataframe_records
      ⟨[ColKey.tup [some "a"], ColKey.tup [some "a"]],
        [("2024/12", ["1", "2"])]⟩ (by decide)).2.1⟩

/-!
### `src/utils/crawler/fnguide.py` — legacy-path-aware cache resolution

`_legacy_folder_from_current`, `_partition_alias` and
`_resolve_existing_blob`.  The `existing_files` dict is an association
list (insertion order, first match wins, keys unique in practice).
-/

/-- The body of `_legacy_folder_from_current` once the first four
segments of the partition folder are in hand: guard the segment shape,
then build `/Fundamentals/FnGuide/{stock}/{year}-Q{quarter}/raw/`, the
year and quarter taken from the arguments when given and parsed out of
the `year=`/`quarter=` (or misspelled `quater=`) segments otherwise. -/
def legacyFolderOf (p0 p1 p2 p3 : String) (stock : String)
    (year quarter : Option Nat) : Option String :=
  if p0 = "Fundamentals" ∧ p1 = "FnGuide" then
    if pyStartsWith p2 "year=" ∧
       (pyStartsWith p3 "quarter=" ∨ pyStartsWith p3 "quater=") then
      some ("/Fundamentals/FnGuide/" ++ stock ++ "/"
        ++ (match year with
            | some y => Nat.repr y
            | none => pyAfterFirstEq p2)
        ++ "-Q"
        ++ (match quarter with
            | some q => Nat.repr q
            | none => pyAfterFirstEq p3)
        ++ "/raw/")
    else none
  else none

/-- `FnGuideCrawler._legacy_folder_from_current`: split the folder on
`'/'` after stripping trailing slashes; fewer than four segments, or a
wrong shape, give `None`. -/
def FnGuideCrawler._legacy_folder_from_current (folder_name : String)
    (stock : String) (year : Option Nat) (quarter : Option Nat) :
    Option String :=
  match pySplitSlash (pyRstripSlash folder_name) with
  | p0 :: p1 :: p2 :: p3 :: _ => legacyFolderOf p0 p1 p2 p3 stock year quarter
  | _ => none

theorem legacy_eq_of_split (folder_name stock : String)
    (year quarter : Option Nat) (p0 p1 p2 p3 : String) (rest : List String)
    (hp : pySplitSlash (pyRstripSlash folder_name)
      = p0 :: p1 :: p2 :: p3 :: rest) :
    FnGuideCrawler._legacy_folder_from_current folder_name stock year quarter
      = legacyFolderOf p0 p1 p2 p3 stock year quarter := by
  unfold FnGuideCrawler._legacy_folder_from_current
  rw [hp]

/-- The shape condition under which `_legacy_folder_from_current`
produces a legacy folder: at least four segments, beginning
`Fundamentals/FnGuide`, the third segment starting `year=` and the
fourth starting `quarter=` or the misspelling `quater=`. -/
def legacyConds (folder_name : String) : Prop :=
  ∃ p2 p3 rest,
    pySplitSlash (pyRstripSlash folder_name)
      = "Fundamentals" :: "FnGuide" :: p2 :: p3 :: rest
    ∧ pyStartsWith p2 "year=" = true
    ∧ (pyStartsWith p3 "quarter=" = true ∨ pyStartsWith p3 "quater=" = true)

/-- `FnGuideCrawler._partition_alias`: `None` when `quarter=` does not
occur in the folder, else the folder with `quarter=` replaced by the
misspelling `quater=`. -/
def FnGuideCrawler._partition_alias (folder_name : String) : Option String :=
  if pyInStr "quarter=" folder_name then
    some (pyReplace folder_name "quarter=" "quater=")
  else none

/-- `FnGuideCrawler._resolve_existing_blob`: walk the candidates in
order; for each, look the candidate itself up in the existing-files
dict, then its slash-stripped form; return the first mapped path found,
`None` when no candidate is present. -/
def FnGuideCrawler._resolve_existing_blob :
    List String → List (String × String) → Option String
  | [], _ => none
  | c :: rest, existing_files =>
    match existing_files.lookup c with
    | some v => some v
    | none =>
      match existing_files.lookup (pyLstripSlash c) with
      | some v => some v
      | none => FnGuideCrawler._resolve_existing_blob rest existing_files

/-- A candidate is found when the dict has it verbatim or with leading
slashes stripped. -/
def candidateFound (existing_files : List (String × String)) (c : String) :
    Bool :=
  (existing_files.lookup c).isSome
    || (existing_files.lookup (pyLstripSlash c)).isSome

theorem resolve_existing_blob_eq (m : List (String × String)) :
    ∀ cs, FnGuideCrawler._resolve_existing_blob cs m
      = (cs.find? (candidateFound m)).bind
          (fun c => (m.lookup c).or (m.lookup (pyLstripSlash c))) := by
  intro cs
  induction cs with
  | nil => rfl
  | cons c rest ih =>
    cases h1 : m.lookup c with
    | some v =>
      have hfound : candidateFound m c = true := by simp [candidateFound, h1]
      simp [FnGuideCrawler._resolve_existing_blob, List.find?, hfound, h1,
        Option.or]
    | none =>
      cases h2 : m.lookup (pyLstripSlash c) with
      | some v =>
        have hfound : candidateFound m c = true := by
          simp [candidateFound, h2]
        simp [FnGuideCrawler._resolve_existing_blob, List.find?, hfound, h1,
          h2, Option.or]
      | none =>
        have hfound : candidateFound m c = false := by
          simp [candidateFound, h1, h2]
        simp [FnGuideCrawler._resolve_existing_blob, List.find?, hfound, h1,
          h2, ih]

theorem resolve_existing_blob_none_iff (m : List (String × String))
    (cs : List String) :
    FnGuideCrawler._resolve_existing_blob cs m = none ↔
      ∀ c ∈ cs, candidateFound m c = false := by
  rw [resolve_existing_blob_eq]
  constructor
  · intro h c hc
    by_contra hne
    have hfound : candidateFound m c = true := by
      cases hcf : candidateFound m c with
      | true => rfl
      | false => exact absurd hcf hne
    have hex : ∃ d, cs.find? (candidateFound m) = some d := by
      have := List.find?_isSome.mpr ⟨c, hc, hfound⟩
      exact Option.isSome_iff_exists.mp this
    obtain ⟨d, hd⟩ := hex
    rw [hd] at h
    have hdf := List.find?_some hd
    simp only [candidateFound, Bool.or_eq_true,
      Option.isSome_iff_exists] at hdf
    rcases hdf with ⟨v, hv⟩ | ⟨v, hv⟩
    · simp [hv, Option.or] at h
    · cases hlk : m.lookup d with
      | some w => simp [hlk, Option.or] at h
      | none => simp [hlk, hv, Option.or] at h
  · intro h
    have hfind : cs.find? (candidateFound m) = none := by
      apply List.find?_eq_none.mpr
      intro c hc
      simp [h c hc]
    simp [hfind]

/-- C5: legacy-path-aware cache resolution.
`_legacy_folder_from_current` returns
`/Fundamentals/FnGuide/{stock}/{year}-Q{quarter}/raw/` exactly when the
folder has at least four segments, begins `Fundamentals/FnGuide`, its
third segment starts with `year=` and its fourth with `quarter=` or the
misspelling `quater=`, and returns `None` for any other folder;
`_partition_alias` returns the folder with `quarter=` replaced by
`quater=`, or `None` when `quarter=` does not occur; and
`_resolve_existing_blob` returns the mapped path of the first candidate
found in the existing-files map (each candidate tried verbatim, then
with leading slashes stripped), `None` when no candidate is present. -/
theorem fnguide_legacy_path_resolution :
    (∀ folder_name stock year quarter,
      FnGuideCrawler._legacy_folder_from_current folder_name stock year quarter
          = none ↔ ¬ legacyConds folder_name)
    ∧ (∀ folder_name stock year quarter p2 p3 rest,
        pySplitSlash (pyRstripSlash folder_name)
          = "Fundamentals" :: "FnGuide" :: p2 :: p3 :: rest →
        pyStartsWith p2 "year=" = true →
        (pyStartsWith p3 "quarter=" = true
          ∨ pyStartsWith p3 "quater=" = true) →
        FnGuideCrawler._legacy_folder_from_current folder_name stock year
            quarter
          = some ("/Fundamentals/FnGuide/" ++ stock ++ "/"
              ++ (match year with
                  | some y => Nat.repr y
                  | none => pyAfterFirstEq p2)
              ++ "-Q"
              ++ (match quarter with
                  | some q => Nat.repr q
                  | none => pyAfterFirstEq p3)
              ++ "/raw/"))
    ∧ (∀ folder_name, pyInStr "quarter=" folder_name = false →
        FnGuideCrawler._partition_alias folder_name = none)
    ∧ (∀ folder_name, pyInStr "quarter=" folder_name = true →
        FnGuideCrawler._partition_alias folder_name
          = some (pyReplace folder_name "quarter=" "quater="))
    ∧ (∀ cs m, FnGuideCrawler._resolve_existing_blob cs m
        = (cs.find? (candidateFound m)).bind
            (fun c => (m.lookup c).or (m.lookup (pyLstripSlash c))))
    ∧ (∀ cs m, FnGuideCrawler._resolve_existing_blob cs m = none ↔
        ∀ c ∈ cs, candidateFound m c = false) := by
  have hmain : ∀ folder_name stock year quarter p2 p3 rest,
      pySplitSlash (pyRstripSlash folder_name)
        = "Fundamentals" :: "FnGuide" :: p2 :: p3 :: rest →
      pyStartsWith p2 "year=" = true →
      (pyStartsWith p3 "quarter=" = true
        ∨ pyStartsWith p3 "quater=" = true) →
      FnGuideCrawler._legacy_folder_from_current folder_name stock year quarter
        = some ("/Fundamentals/FnGuide/" ++ stock ++ "/"
            ++ (match year with
                | some y => Nat.repr y
                | none => pyAfterFirstEq p2)
            ++ "-Q"
            ++ (match quarter with
                | some q => Nat.repr q
                | none => pyAfterFirstEq p3)
            ++ "/raw/") := by
    intro folder_name stock year quarter p2 p3 rest hq hy hquarter
    rw [legacy_eq_of_split folder_name stock year quarter _ _ _ _ _ hq]
    unfold legacyFolderOf
    rw [if_pos ⟨rfl, rfl⟩, if_pos ⟨hy, hquarter⟩]
  refine ⟨?_, hmain, ?_, ?_, fun cs m => resolve_existing_blob_eq m cs, ?_⟩
  · intro folder_name stock year quarter
    constructor
    · intro hnone hcond
      obtain ⟨q2, q3, qr, hq, hy, hquarter⟩ := hcond
      rw [hmain folder_name stock year quarter q2 q3 qr hq hy hquarter]
        at hnone
      exact Option.some_ne_none _ hnone
    · intro hncond
      rcases hp : pySplitSlash (pyRstripSlash folder_name) with
        _ | ⟨p0, _ | ⟨p1, _ | ⟨p2, _ | ⟨p3, rest⟩⟩⟩⟩
      · unfold FnGuideCrawler._legacy_folder_from_current; rw [hp]
      · unfold FnGuideCrawler._legacy_folder_from_current; rw [hp]
      · unfold FnGuideCrawler._legacy_folder_from_current; rw [hp]
      · unfold FnGuideCrawler._legacy_folder_from_current; rw [hp]
      · rw [legacy_eq_of_split folder_name stock year quarter _ _ _ _ _ hp]
        unfold legacyFolderOf
        by_cases h01 : p0 = "Fundamentals" ∧ p1 = "FnGuide"
        · rw [if_pos h01]
          by_cases h23 : pyStartsWith p2 "year=" = true ∧
              (pyStartsWith p3 "quarter=" = true
                ∨ pyStartsWith p3 "quater=" = true)
          · exfalso
            refine hncond ⟨p2, p3, rest, ?_, h23.1, h23.2⟩
            rw [hp, h01.1, h01.2]
          · rw [if_neg h23]
        · rw [if_neg h01]
  · intro folder_name h
    unfold FnGuideCrawler._partition_alias
    rw [h]
    rfl
  · intro folder_name h
    unfold FnGuideCrawler._partition_alias
    rw [h]
    rfl
  · intro cs m
    exact resolve_existing_blob_none_iff m cs

/-- Witness for C5 at the current partition folder of 2025 Q3 and stock
`005930`, with year and quarter parsed out of the folder. -/
theorem fnguide_legacy_path_resolution_witness :
    pySplitSlash (pyRstripSlash "Fundamentals/FnGuide/year=2025/quarter=3/")
      = ["Fundamentals", "FnGuide", "year=2025", "quarter=3"]
    ∧ pyStartsWith "year=2025" "year=" = true
    ∧ pyStartsWith "quarter=3" "quarter=" = true
    ∧ FnGuideCrawler._legacy_folder_from_current
        "Fundamentals/FnGuide/year=2025/quarter=3/" "005930" none none
      = some "/Fundamentals/FnGuide/005930/2025-Q3/raw/" := by
  refine ⟨by decide, by decide, by decide, ?_⟩
  have h := fnguide_legacy_path_resolution.2.1
    "Fundamentals/FnGuide/year=2025/quarter=3/" "005930" none none
    "year=2025" "quarter=3" [] (by decide) (by decide) (Or.inl (by decide))
  rw [h]
  decide

/-!
### `src/utils/crawler/fnguide.py` — the `main_table_selectors` property

In the source, `FnGuideMain.main_table_selectors` is declared with
`@property` stacked on top of `@staticmethod`.  `parse` (line 1231) and
`_load_from_gcs` (line 854) access the attribute on the *class*
(`FnGuideMain.main_table_selectors`), and in Python a property descriptor
accessed on a class evaluates to the descriptor object itself, not to the
underlying list — so the `for name, index in …` iteration raises
`TypeError: 'property' object is not iterable`.  The embedding separates
the two values: the underlying `_main_table_selectors` list, and the
result of the class-level attribute access.
-/

/-- What a class-level attribute access can produce here: the property
descriptor object, or an actual selector list. -/
inductive PyClassAttr where
  | propertyObj
  | selectorList : List (String × Nat) → PyClassAttr

/-- `FnGuideMain._main_table_selectors`: the underlying table list. -/
def FnGuideMain._main_table_selectors : List (String × Nat) :=
  [("market_conditions", 0), ("earning_issue", 1), ("holdings_status", 2),
   ("governance", 3), ("shareholders", 4), ("bond_rating", 6),
   ("analysis", 7), ("industry_comparison", 8),
   ("financialhighlight_annual", 11), ("financialhighlight_netquarter", 12)]

/-- The value of the class-level access `FnGuideMain.main_table_selectors`:
because the attribute is a property (wrapping a staticmethod), class-level
access returns the property object itself. -/
def FnGuideMain.main_table_selectors : PyClassAttr :=
  PyClassAttr.propertyObj

/-- Iterating a class-attribute value, as `for name, index in …` does:
a property object is not iterable and raises `TypeError`. -/
def pyIterSelectors : PyClassAttr → Except PyErr (List (String × Nat))
  | .propertyObj => .error .typeError
  | .selectorList l => .ok l

/-- The call `self._translate(frame, stock=stock)` made by `parse`:
`_translate`'s signature is `(frame, *, stock_code=None)`, so passing the
keyword argument `stock` raises `TypeError` before the body runs. -/
def FnGuideMain._translate_call_stock_kw (_frame : PandasFrame)
    (_stock : Option String) : Except PyErr PandasFrame :=
  .error .typeError

/-- `FnGuideMain.parse`: iterate the class attribute (which raises), and
for each selector translate and collect the frame when the index is in
range, or record an empty dataset otherwise.  The dataset payload of the
in-range branch is unreachable: the keyword-mismatched `_translate` call
raises first (and iteration already raised before that). -/
def FnGuideMain.parse (frames : List PandasFrame) (stock : Option String) :
    Except PyErr (List (String × List FnRecord)) := do
  let selectors ← pyIterSelectors FnGuideMain.main_table_selectors
  let datasets ← selectors.foldlM
    (fun (acc : List (String × List FnRecord)) (sel : String × Nat) => do
      if sel.2 < frames.length then
        let _frame ← FnGuideMain._translate_call_stock_kw
          (frames.getD sel.2 ⟨[], []⟩) stock
        pure (acc ++ [(sel.1, [])])
      else
        pure (acc ++ [(sel.1, [])]))
    []
  pure datasets

/-- `FnGuideCrawler._get_snapshot`: fetch and parse the main page (the
oracle covers `requests.get`, `raise_for_status` and `read_html`), then
run `FnGuideMain.parse` on the tables. -/
def FnGuideCrawler._get_snapshot
    (httpTables : Except PyErr (List PandasFrame)) (stock : Option String) :
    Except PyErr (List (String × List FnRecord)) := do
  let tables ← httpTables
  FnGuideMain.parse tables stock

/-- Cached FnGuide data as loaded from GCS: table name to record list
(`dict[str, list[dict]]`). -/
abbrev FnCache := List (String × List FnRecord)

/-- `FnGuideCrawler._load_from_gcs` (returning the cached data, or `None`
when the cache is incomplete): the method's first use of data is building
`all_table_names` from the class attribute
`FnGuideMain.main_table_selectors` (line 854), which raises; the rest of
the body (reading and parsing each cached blob) is the `tail`
continuation, never reached. -/
def FnGuideCrawler._load_from_gcs
    (tail : Except PyErr (Option FnCache)) :
    Except PyErr (Option FnCache) := do
  let _all_table_names ← pyIterSelectors FnGuideMain.main_table_selectors
  tail

/-- C2: `FnGuideMain.parse` raises `TypeError` for every input — the loop
iterates the class-level `main_table_selectors`, a property object, and
even a successful iteration would hit the keyword-mismatched
`_translate(frame, stock=…)` call; consequently `_load_from_gcs` (which
builds its table-name list from the same attribute) raises `TypeError`,
and `_get_snapshot` never returns normally. -/
theorem fnguide_parse_always_type_error :
    (∀ frames stock,
      FnGuideMain.parse frames stock = Except.error PyErr.typeError)
    ∧ (∀ frame stock,
      FnGuideMain._translate_call_stock_kw frame stock
        = Except.error PyErr.typeError)
    ∧ (∀ tail : Except PyErr (Option FnCache),
      FnGuideCrawler._load_from_gcs tail = Except.error PyErr.typeError)
    ∧ (∀ httpTables stock, ∃ e,
      FnGuideCrawler._get_snapshot httpTables stock = Except.error e) := by
  refine ⟨fun frames stock => rfl, fun frame stock => rfl,
    fun tail => rfl, ?_⟩
  intro httpTables stock
  cases httpTables with
  | error e => exact ⟨e, rfl⟩
  | ok tables => exact ⟨PyErr.typeError, rfl⟩

/-!
### `src/utils/crawler/fnguide.py` — partitioned cache paths and upload

`get_all_fundamentals` computes the quarter and the partition folder
(lines 184–192); `upload_to_gcs` uploads each table's CSV payload under
`{folder}{stock}_{table}.csv` (lines 937–967).
-/

/-- `quarter = (today.month - 1) // 3 + 1`. -/
def quarterOfMonth (month : Nat) : Nat :=
  (month - 1) / 3 + 1

/-- The partition folder: `year_partition = "year=" + str(year)`,
`quarter_partition = "quarter=" + str(quarter)` (the `quarter=` literal is
the module constant `QUARTER_PREFIX`), joined as
`Fundamentals/FnGuide/{year_partition}/{quarter_partition}/`. -/
def partitionFolderName (year month : Nat) : String :=
  "Fundamentals/FnGuide/" ++ ("year=" ++ Nat.repr year) ++ "/"
    ++ ("quarter=" ++ Nat.repr (quarterOfMonth month)) ++ "/"

/-- `FnGuideCrawler._expand_candidates`: the blob name, plus its
slash-stripped form when different and non-empty. -/
def FnGuideCrawler._expand_candidates (blob_name : String) : List String :=
  let normalized := pyLstripSlash blob_name
  if normalized ≠ "" ∧ normalized ≠ blob_name then [blob_name, normalized]
  else [blob_name]

/-- `FnGuideCrawler._legacy_candidate_blobs`: scan the existing-files
dict for blobs that contain the stock code, end in `_{table}.json` or
`_{table}.csv`, and do not live in the new partition layout; expand each
such actual path into its candidate spellings. -/
def FnGuideCrawler._legacy_candidate_blobs (name file_base : String)
    (existing_files : List (String × String)) : List String :=
  go existing_files []
where
  go : List (String × String) → List String → List String
    | [], _ => []
    | (key, actual) :: rest, seen =>
      if actual ∈ seen then go rest seen
      else
        let normalized_key := pyLstripSlash key
        if pyInStr file_base normalized_key = false then go rest seen
        else if ¬(pyEndsWith normalized_key ("_" ++ name ++ ".json") = true
              ∨ pyEndsWith normalized_key ("_" ++ name ++ ".csv") = true) then
          go rest seen
        else if pyStartsWith normalized_key "Fundamentals/FnGuide/year="
            = true then
          go rest seen
        else
          FnGuideCrawler._expand_candidates actual ++ go rest (actual :: seen)

/-- The observable result of `upload_to_gcs`: the `(blob name, payload)`
uploads performed, in order, and the final existing-files dict. -/
structure UploadsTrace where
  uploads : List (String × String)
  existing : List (String × String)

/-- Python `existing_files[k] = v` on an association-list dict: replace
in place when the key exists, append otherwise. -/
def pyDictAssign (m : List (String × String)) (k v : String) :
    List (String × String) :=
  if (m.lookup k).isSome then
    m.map (fun kv => if kv.1 = k then (k, v) else kv)
  else m ++ [(k, v)]

/-- Python `existing_files.setdefault(k, v)`. -/
def pyDictSetdefault (m : List (String × String)) (k v : String) :
    List (String × String) :=
  if (m.lookup k).isSome then m else m ++ [(k, v)]

/-- `FnGuideCrawler.upload_to_gcs` (the per-payload loop; the
`ensure_folder` placeholder call touches only the folder marker object
and is not a table upload).  For each `(table, payload)` the destination
is `{folder}{stock}_{table}.csv` (with leading slashes stripped); with
`overwrite=False` a table already resolvable among the existing files is
skipped; a successful upload is recorded into the existing-files dict.
`uploadOk` tells, per blob name, whether `gcs.upload_file` returns
`True`. -/
def uploadToGcsLoop (folder_name file_base : String) (overwrite : Bool)
    (uploadOk : String → Bool) :
    List (String × String) → List (String × String) → UploadsTrace
  | [], existing => ⟨[], existing⟩
  | (name, payload) :: rest, existing =>
    let new_blob := folder_name ++ file_base ++ "_" ++ name ++ ".csv"
    let candidate_names := FnGuideCrawler._expand_candidates new_blob
      ++ FnGuideCrawler._legacy_candidate_blobs name file_base existing
    if overwrite = false
        ∧ (FnGuideCrawler._resolve_existing_blob candidate_names
            existing).isSome then
      uploadToGcsLoop folder_name file_base overwrite uploadOk rest existing
    else
      let target := pyLstripSlash new_blob
      let existing2 :=
        if uploadOk target then
          pyDictSetdefault
            (pyDictSetdefault (pyDictAssign existing target target)
              (pyLstripSlash target) target)
            ("/" ++ target) target
        else existing
      let t := uploadToGcsLoop folder_name file_base overwrite uploadOk rest
        existing2
      ⟨(target, payload) :: t.uploads, t.existing⟩

def FnGuideCrawler.upload_to_gcs
    (serialized_payloads : List (String × String))
    (folder_name file_base : String)
    (existing_files : List (String × String))
    (overwrite : Bool) (uploadOk : String → Bool) : UploadsTrace :=
  uploadToGcsLoop folder_name file_base overwrite uploadOk
    serialized_payloads existing_files

/-- Strings starting with a non-slash character are unchanged by
`lstrip("/")`. -/
theorem pyLstripSlash_eq_self (s : String) (h : s.data.head? ≠ some '/') :
    pyLstripSlash s = s := by
  unfold pyLstripSlash
  cases hd : s.data with
  | nil =>
    have hs : s = ⟨[]⟩ := by cases s; simp_all
    rw [hs]
    rfl
  | cons c l =>
    have hc : c ≠ '/' := by
      intro hcc
      rw [hd, hcc] at h
      exact h rfl
    have hdp : List.dropWhile (fun c => c = '/') (c :: l) = c :: l := by
      rw [List.dropWhile_cons]
      simp [hc]
    cases s with
    | mk d =>
      simp only at hd
      subst hd
      simp only [hdp]

/-- The first character survives appending on the right. -/
theorem head_append (a b : String) (c : Char) (h : a.data.head? = some c) :
    (a ++ b).data.head? = some c := by
  rw [String.data_append, List.head?_append, h]
  rfl

/-- String concatenation is associative. -/
theorem str_append_assoc (a b c : String) : a ++ b ++ c = a ++ (b ++ c) := by
  cases a; cases b; cases c
  simp [String.ext_iff, String.data_append]

/-- With `overwrite=True`, the upload loop uploads every payload, each
under `{folder}{stock}_{table}.csv` (the leading-slash strip is a no-op
because the partition folder starts with `F`). -/
theorem uploadLoop_overwrite_uploads (folder base : String)
    (hhead : folder.data.head? = some 'F') (uploadOk : String → Bool) :
    ∀ payloads existing,
      (uploadToGcsLoop folder base true uploadOk payloads existing).uploads
        = payloads.map (fun p =>
            (folder ++ base ++ "_" ++ p.1 ++ ".csv", p.2)) := by
  intro payloads
  induction payloads with
  | nil => intro existing; rfl
  | cons p rest ih =>
    intro existing
    obtain ⟨name, payload⟩ := p
    have htarget : pyLstripSlash (folder ++ base ++ "_" ++ name ++ ".csv")
        = folder ++ base ++ "_" ++ name ++ ".csv" := by
      apply pyLstripSlash_eq_self
      have h4 := head_append (folder ++ base ++ "_" ++ name) ".csv" 'F'
        (head_append (folder ++ base ++ "_") name 'F'
          (head_append (folder ++ base) "_" 'F'
            (head_append folder base 'F' hhead)))
      rw [h4]
      decide
    unfold uploadToGcsLoop
    rw [if_neg (by simp)]
    simp [htarget, ih]

/-- C7: date-partitioned FnGuide cache paths.  For a fetch on a date with
month `m` (1–12), the quarter `(m-1)//3+1` lies between 1 and 4, the
cache folder is exactly `Fundamentals/FnGuide/year=Y/quarter=Q/`, and
(with the default `overwrite=True`) every table's payload is uploaded as
`{folder}{stock}_{table}.csv`. -/
theorem fnguide_partition_upload_path (year month : Nat)
    (hm1 : 1 ≤ month) (hm2 : month ≤ 12)
    (stock : String) (payloads existing : List (String × String))
    (uploadOk : String → Bool) :
    1 ≤ quarterOfMonth month ∧ quarterOfMonth month ≤ 4
    ∧ partitionFolderName year month
        = "Fundamentals/FnGuide/year=" ++ Nat.repr year ++ "/quarter="
          ++ Nat.repr (quarterOfMonth month) ++ "/"
    ∧ (FnGuideCrawler.upload_to_gcs payloads (partitionFolderName year month)
        stock existing true uploadOk).uploads
      = payloads.map (fun p =>
          (partitionFolderName year month ++ stock ++ "_" ++ p.1 ++ ".csv",
           p.2)) := by
  refine ⟨by unfold quarterOfMonth; omega, by unfold quarterOfMonth; omega,
    ?_, ?_⟩
  · unfold partitionFolderName
    have hF : ("Fundamentals/FnGuide/" : String) ++ "year="
        = "Fundamentals/FnGuide/year=" := by decide
    have hQ : ("/" : String) ++ "quarter=" = "/quarter=" := by decide
    rw [← str_append_assoc "Fundamentals/FnGuide/" "year=" (Nat.repr year),
      hF]
    rw [str_append_assoc ("Fundamentals/FnGuide/year=" ++ Nat.repr year) "/"
      ("quarter=" ++ Nat.repr (quarterOfMonth month))]
    rw [← str_append_assoc "/" "quarter=" (Nat.repr (quarterOfMonth month)),
      hQ]
    rw [← str_append_assoc ("Fundamentals/FnGuide/year=" ++ Nat.repr year)
      "/quarter=" (Nat.repr (quarterOfMonth month))]
  · apply uploadLoop_overwrite_uploads
    unfold partitionFolderName
    apply head_append
    apply head_append
    apply head_append
    apply head_append
    decide

/-- Witness for C7: August 2025 (third quarter), one table payload for
stock `005930`. -/
theorem fnguide_partition_upload_path_witness :
    (1 ≤ 8 ∧ (8:Nat) ≤ 12)
    ∧ (1 ≤ quarterOfMonth 8 ∧ quarterOfMonth 8 ≤ 4
       ∧ partitionFolderName 2025 8
          = "Fundamentals/FnGuide/year=" ++ Nat.repr 2025 ++ "/quarter="
            ++ Nat.repr (quarterOfMonth 8) ++ "/"
       ∧ (FnGuideCrawler.upload_to_gcs [("t1", "csv1")]
            (partitionFolderName 2025 8) "005930" [] true
            (fun _ => true)).uploads
          = [("t1", "csv1")].map (fun p =>
              (partitionFolderName 2025 8 ++ "005930" ++ "_" ++ p.1
                ++ ".csv", p.2))) :=
  ⟨⟨by decide, by decide⟩,
    fnguide_partition_upload_path 2025 8 (by decide) (by decide)
      "005930" [("t1", "csv1")] [] (fun _ => true)⟩

/-!
### `src/utils/crawler/fnguide.py` + `src/fundamentals.py` — the cache /
crawl decision of `get_all_fundamentals` and the `find_fnguide_data` tool

`get_all_fundamentals(use_cache, overwrite)` (lines 155–318): with
`use_cache=True` and GCS available it collects existing files and calls
`_load_from_gcs`; a loaded cache is returned (converted to the new
schema) only when `overwrite` is false; otherwise the crawl runs —
`_get_snapshot` performs the `requests.get` against FnGuide before
parsing.  The `fundamentals` wrapper forwards with default
`overwrite=True`, and the `find_fnguide_data` MCP tool calls
`crawler.fundamentals(use_cache=use_cache)`, leaving `overwrite` at that
default.  The trace records whether the vendor (FnGuide) was contacted
and how the call ends.
-/

/-- The result dict of the new schema: the five keys, each holding a
string or `None`. -/
abbrev FnResult := List (String × Option String)

/-- The external world of one FnGuide fetch.  `loadTail` and `crawlTail`
are the continuations of `_load_from_gcs` after line 854 and of the
crawl after a successful snapshot parse; both are dead code (the
property-object iteration and the keyword-mismatched `_translate` call
raise first), so they are oracles here. -/
structure FnEnv where
  gcsUp : Bool
  snapshotTables : Except PyErr (List PandasFrame)
  loadTail : Except PyErr (Option FnCache)
  crawlTail : Except PyErr FnResult
  dumps : List FnRecord → String

/-- What one `get_all_fundamentals` call did: whether FnGuide itself was
contacted (the `requests.get` of `_get_snapshot`), and the returned
value or the exception that escaped. -/
structure FnFetchTrace where
  contactedVendor : Bool
  outcome : Except PyErr FnResult

/-- `FnGuideCrawler._convert_to_new_schema`: map the cached Korean table
names onto the five-key schema; a missing or empty table leaves its
field `None`. -/
def FnGuideCrawler._convert_to_new_schema (dumps : List FnRecord → String)
    (stock : String) (cached : FnCache) : FnResult :=
  let pick := fun (k : String) =>
    match cached.lookup k with
    | some records => if records.isEmpty then none else some (dumps records)
    | none => none
  [("ticker", some stock), ("country", some "KR"),
   ("balance_sheet", pick "재무상태표"),
   ("income_statement", pick "포괄손익계산서"),
   ("cash_flow", pick "현금흐름표")]

/-- The crawl phase of `get_all_fundamentals`: `_get_snapshot` first
issues the HTTP request to FnGuide (vendor contacted), then parses; a
raised exception escapes, and the rest of the crawl (finance tables,
CSV payloads, upload, schema mapping) is the dead `crawlTail`. -/
def fnguideCrawlPhase (env : FnEnv) (stock : String) : FnFetchTrace :=
  match FnGuideCrawler._get_snapshot env.snapshotTables (some stock) with
  | .error e => ⟨true, .error e⟩
  | .ok _ => ⟨true, env.crawlTail⟩

/-- `FnGuideCrawler.get_all_fundamentals`: the cache / crawl decision.
With `use_cache` and GCS available, `_load_from_gcs` runs (raising
`TypeError` in the current source); its loaded cache would be returned
only under `not overwrite`; every other path crawls. -/
def FnGuideCrawler.get_all_fundamentals (env : FnEnv) (stock : String)
    (use_cache overwrite : Bool) : FnFetchTrace :=
  if use_cache && env.gcsUp then
    match FnGuideCrawler._load_from_gcs env.loadTail with
    | .error e => ⟨false, .error e⟩
    | .ok cached_data =>
      match cached_data with
      | some cached =>
        if overwrite = false then
          ⟨false, .ok (FnGuideCrawler._convert_to_new_schema env.dumps stock
            cached)⟩
        else fnguideCrawlPhase env stock
      | none => fnguideCrawlPhase env stock
  else fnguideCrawlPhase env stock

/-- `FnGuideCrawler.fundamentals`: the compatibility wrapper; it forwards
`stock`, `use_cache` and `overwrite` unchanged to
`get_all_fundamentals`, and its `overwrite` parameter defaults to
`True`. -/
def FnGuideCrawler.fundamentals (env : FnEnv) (stock : String)
    (use_cache overwrite : Bool) : FnFetchTrace :=
  FnGuideCrawler.get_all_fundamentals env stock use_cache overwrite

/-- The `find_fnguide_data` MCP tool: builds a crawler for the stock and
calls `crawler.fundamentals(use_cache=use_cache)`, leaving `overwrite`
at its default `True`. -/
def find_fnguide_data (env : FnEnv) (stock : String) (use_cache : Bool) :
    FnFetchTrace :=
  FnGuideCrawler.fundamentals env stock use_cache true

/-- A complete cached quarter for the three financial statements, as
`_load_from_gcs` would deliver it. -/
def demoFnCache : FnCache :=
  [("포괄손익계산서", [[("period", "2024/12"), ("매출액", "100")]]),
   ("재무상태표", [[("period", "2024/12"), ("자산", "200")]]),
   ("현금흐름표", [[("period", "2024/12"), ("영업활동", "50")]])]

/-- An environment in which GCS is reachable, the full cache for the
stock exists, and the FnGuide page fetch would succeed. -/
def demoFnEnv : FnEnv :=
  { gcsUp := true
    snapshotTables := Except.ok []
    loadTail := Except.ok (some demoFnCache)
    crawlTail := Except.ok []
    dumps := fun _ => "[]" }

/-- C1 (failing evaluation): `find_fnguide_data` with `use_cache=True`
and a complete cache present does not read the cache and return its
parsed content — it raises `TypeError` (from the property-object
iteration in `_load_from_gcs`) without contacting the vendor; with
`use_cache=False` the crawl contacts FnGuide and then raises `TypeError`
in `parse`; and even with a working loader, the cache is returned only
when `overwrite` is false, while `find_fnguide_data` leaves `overwrite`
at its default `True`. -/
theorem fnguide_cache_first_fails_on_default_call :
    (find_fnguide_data demoFnEnv "005930" true).outcome
        = Except.error PyErr.typeError
    ∧ (find_fnguide_data demoFnEnv "005930" true).contactedVendor = false
    ∧ demoFnEnv.loadTail = Except.ok (some demoFnCache)
    ∧ (find_fnguide_data demoFnEnv "005930" false).contactedVendor = true
    ∧ (find_fnguide_data demoFnEnv "005930" false).outcome
        = Except.error PyErr.typeError :=
  ⟨rfl, rfl, rfl, rfl, rfl⟩

/-!
### `src/utils/yahoofinance.py` — `Fundamentals.fundamentals`

The statement-collection path of `Fundamentals.fundamentals` (the
`attribute_name_str` branch, which fetches a single yfinance attribute,
is not involved in any property verified here and is omitted).  The
yfinance calls are oracle fields; each statement fetch yields `some s`
(a non-empty statement, serialized), `none` (a `None` or empty frame),
or raises.
-/

/-- A value of the returned dict: a JSON string or Python `None`. -/
inductive FVal where
  | s : String → FVal
  | nil : FVal
deriving DecidableEq, Repr

/-- The returned dict, in insertion order. -/
abbrev FundDict := List (String × FVal)

/-- The external world of one `Fundamentals.fundamentals` call. -/
structure YfEnv where
  gcs : GCSState
  infoCountry : Except PyErr (Option String)
  balance_sheet : Except PyErr (Option String)
  income_stmt : Except PyErr (Option String)
  cashflow : Except PyErr (Option String)
  jsonLoads : String → Option FundDict

/-- `find.get_ticker(identifier) or identifier.upper()`. -/
def yahooTickerSymbol (identifier : String) : String :=
  match companydict.get_ticker identifier with
  | some t => if t = "" then pyUpper identifier else t
  | none => pyUpper identifier

/-- `f"{GCS_CACHE_PREFIX}/{ticker_symbol}.json"`. -/
def yahooCacheBlobName (ticker_symbol : String) : String :=
  "yahoofinance_fundamentals_cache/" ++ ticker_symbol ++ ".json"

/-- The cache check (lines 377–385): only with `use_cache` and not
`overwrite`; a truthy cached payload that parses as JSON is returned; a
missing, empty or corrupted payload falls through to the fetch. -/
def yahooCacheLookup (env : YfEnv) (gcs_blob_name : String)
    (use_cache overwrite : Bool) : Except PyErr (Option FundDict) :=
  if use_cache && !overwrite then
    match GCSManager.read_file env.gcs gcs_blob_name with
    | .error e => .error e
    | .ok cached_payload =>
      match cached_payload with
      | some payload =>
        if payload ≠ "" then
          match env.jsonLoads payload with
          | some d => .ok (some d)
          | none => .ok none
        else .ok none
      | none => .ok none
  else .ok none

/-- One statement fetch wrapped in its own `try`/`except`: a raised
exception, a `None` frame and an empty frame all leave the field
`None`; a non-empty frame is serialized into the field. -/
def statementField : Except PyErr (Option String) → FVal
  | .error _ => .nil
  | .ok none => .nil
  | .ok (some s) => .s s

/-- The fetch path of `Fundamentals.fundamentals`: infer the country
(`info.get("country") or "Unknown"`, overridden to `KR` for `.KS`/`.KQ`
tickers and for six-digit numeric codes), fetch the three statements
each in its own `try`, build the five-key dict, and attempt the cache
write (whose `try`/`except` makes it invisible to the caller). -/
def yahooFetchResult (env : YfEnv) (ticker_symbol : String) : FundDict :=
  let country0 := match env.infoCountry with
    | .error _ => "Unknown"
    | .ok c =>
      match c with
      | some s => if s = "" then "Unknown" else s
      | none => "Unknown"
  let stripped := pyReplace (pyReplace ticker_symbol ".KS" "") ".KQ" ""
  let country :=
    if pyInStr ".KS" ticker_symbol || pyInStr ".KQ" ticker_symbol then "KR"
    else if pyIsDigit stripped && (stripped.length == 6) then "KR"
    else country0
  [("ticker", FVal.s ticker_symbol), ("country", FVal.s country),
   ("balance_sheet", statementField env.balance_sheet),
   ("income_statement", statementField env.income_stmt),
   ("cash_flow", statementField env.cashflow)]

/-- `Fundamentals.fundamentals` (statement-collection path): resolve the
identifier (`stock or query`, raising `ValueError` when both are falsy),
resolve the ticker, consult the cache, and otherwise fetch. -/
def Fundamentals.fundamentals (env : YfEnv) (stock query : Option String)
    (use_cache overwrite : Bool) : Except PyErr FundDict :=
  match (if pyTruthy stock then stock else query) with
  | none => .error .valueError
  | some idv =>
    if idv = "" then .error .valueError
    else
      match yahooCacheLookup env (yahooCacheBlobName (yahooTickerSymbol idv))
          use_cache overwrite with
      | .error e => .error e
      | .ok (some payload) => .ok payload
      | .ok none => .ok (yahooFetchResult env idv)

/-- A successful pass of the `read_file` candidate loop returns the
stored content of one of the candidates. -/
theorem readFileLoop_some (st : GCSState) :
    ∀ (cands : List String) (c : String),
      readFileLoop st cands = some c →
      ∃ nm ∈ cands, st.blobs.lookup nm = some c := by
  intro cands
  induction cands with
  | nil => intro c h; cases h
  | cons n rest ih =>
    intro c h
    unfold readFileLoop at h
    cases hdl : gcsDownload st n with
    | ok v =>
      rw [hdl] at h
      have hv : v = c := by injection h
      subst hv
      unfold gcsDownload at hdl
      by_cases hr : st.downloadRaises n
      · rw [if_pos hr] at hdl; cases hdl
      · rw [if_neg hr] at hdl
        cases hlk : st.blobs.lookup n with
        | some w =>
          rw [hlk] at hdl
          have : w = v := by injection hdl
          subst this
          exact ⟨n, List.mem_cons_self n rest, hlk⟩
        | none => rw [hlk] at hdl; cases hdl
    | error e =>
      rw [hdl] at h
      obtain ⟨nm, hmem, hlk⟩ := ih c h
      exact ⟨nm, List.mem_cons_of_mem n hmem, hlk⟩

/-- C3: failures become `None`/empty sentinels.  `GCSManager.read_file`
always returns (never raises) either `None` or the stored content of the
requested blob (under its verbatim or slash-stripped name);
`GCSManager.list_files` returns `[]` whenever the listing raises (and
when the client is disabled); and on its fetch path
`Fundamentals.fundamentals` catches each statement-fetch exception
individually, leaves that field `None`, and still returns a dict whose
keys are exactly `ticker`, `country`, `balance_sheet`,
`income_statement`, `cash_flow`. -/
theorem gcs_and_fundamentals_error_sentinels :
    (∀ st n, ∃ r : Option String,
      GCSManager.read_file st n = Except.ok r
      ∧ (∀ c, r = some c →
          st.blobs.lookup n = some c
          ∨ st.blobs.lookup (GCSManager._normalize_blob_name n) = some c))
    ∧ (∀ st folder sort_by_time e,
        gatherBlobs st (listFilesPrefixes folder) = Except.error e →
        GCSManager.list_files st folder sort_by_time = [])
    ∧ (∀ st folder sort_by_time, st.available = false →
        GCSManager.list_files st folder sort_by_time = [])
    ∧ (∀ (env : YfEnv) (query : Option String) (idv : String)
        (use_cache overwrite : Bool), idv ≠ "" →
        yahooCacheLookup env (yahooCacheBlobName (yahooTickerSymbol idv))
          use_cache overwrite = Except.ok none →
        Fundamentals.fundamentals env (some idv) query use_cache overwrite
          = Except.ok (yahooFetchResult env idv)
        ∧ (yahooFetchResult env idv).map Prod.fst
          = ["ticker", "country", "balance_sheet", "income_statement",
             "cash_flow"]
        ∧ (∀ e, env.balance_sheet = Except.error e →
            (yahooFetchResult env idv).lookup "balance_sheet"
              = some FVal.nil)
        ∧ (∀ e, env.income_stmt = Except.error e →
            (yahooFetchResult env idv).lookup "income_statement"
              = some FVal.nil)
        ∧ (∀ e, env.cashflow = Except.error e →
            (yahooFetchResult env idv).lookup "cash_flow"
              = some FVal.nil)) := by
  refine ⟨?_, ?_, ?_, ?_⟩
  · -- read_file: total, and a hit is stored content
    intro st n
    cases hav : st.available with
    | false =>
      refine ⟨none, ?_, by intro c h; cases h⟩
      unfold GCSManager.read_file
      rw [hav]
      rfl
    | true =>
      cases hbk : st.bucketRaises with
      | true =>
        refine ⟨none, ?_, by intro c h; cases h⟩
        unfold GCSManager.read_file
        rw [hav, hbk]
        rfl
      | false =>
        rw [read_file_enabled st hav hbk n]
        refine ⟨_, rfl, ?_⟩
        intro c hc
        obtain ⟨nm, hmem, hlk⟩ := readFileLoop_some st _ c hc
        rcases List.mem_cons.mp hmem with h | h
        · subst h; exact Or.inl hlk
        · by_cases hcond : GCSManager._normalize_blob_name n ≠ ""
              ∧ GCSManager._normalize_blob_name n ≠ n
          · rw [if_pos hcond] at h
            rcases List.mem_singleton.mp h with h
            subst h
            exact Or.inr hlk
          · rw [if_neg hcond] at h
            cases h
  · -- list_files: a raising listing yields []
    intro st folder sort_by_time e hg
    unfold GCSManager.list_files
    cases hav : st.available with
    | false => rfl
    | true =>
      rw [hg]
      rfl
  · -- list_files: a disabled client yields []
    intro st folder sort_by_time hav
    unfold GCSManager.list_files
    rw [hav]
    rfl
  · -- fundamentals: fetch path
    intro env query idv use_cache overwrite hne hmiss
    have hsc : (if pyTruthy (some idv) then some idv else query)
        = some idv := by
      simp [pyTruthy, hne]
    have hred : Fundamentals.fundamentals env (some idv) query use_cache
        overwrite = Except.ok (yahooFetchResult env idv) := by
      unfold Fundamentals.fundamentals
      simp only [hsc]
      rw [if_neg hne]
      simp only [hmiss]
    refine ⟨hred, rfl, ?_, ?_, ?_⟩
    · intro e herr
      have hb : (yahooFetchResult env idv).lookup "balance_sheet"
          = some (statementField env.balance_sheet) := rfl
      rw [hb, herr]
      rfl
    · intro e herr
      have hb : (yahooFetchResult env idv).lookup "income_statement"
          = some (statementField env.income_stmt) := rfl
      rw [hb, herr]
      rfl
    · intro e herr
      have hb : (yahooFetchResult env idv).lookup "cash_flow"
          = some (statementField env.cashflow) := rfl
      rw [hb, herr]
      rfl

/-- A storage state whose listing raises: used to witness the
empty-result sentinel of `list_files`. -/
def demoFailGCSState : GCSState :=
  { available := true, bucketRaises := false, blobs := []
    downloadRaises := fun _ => false, uploadRaises := false
    listBlobs := fun _ => Except.error PyErr.other }

/-- A Yahoo environment with an empty cache and every statement fetch
raising. -/
def demoYfEnv : YfEnv :=
  { gcs := { available := true, bucketRaises := false, blobs := []
             downloadRaises := fun _ => false, uploadRaises := false
             listBlobs := fun _ => Except.ok [] }
    infoCountry := Except.error PyErr.other
    balance_sheet := Except.error PyErr.other
    income_stmt := Except.error PyErr.other
    cashflow := Except.error PyErr.other
    jsonLoads := fun _ => none }

/-- Witness for C3: a raising listing yields `[]`, and the fetch path for
`AAPL` with an empty cache returns the five-key dict. -/
theorem gcs_and_fundamentals_error_sentinels_witness :
    gatherBlobs demoFailGCSState (listFilesPrefixes (some "Fundamentals/"))
      = Except.error PyErr.other
    ∧ GCSManager.list_files demoFailGCSState (some "Fundamentals/") true = []
    ∧ ("AAPL" : String) ≠ ""
    ∧ yahooCacheLookup demoYfEnv
        (yahooCacheBlobName (yahooTickerSymbol "AAPL")) true false
      = Except.ok none
    ∧ Fundamentals.fundamentals demoYfEnv (some "AAPL") none true false
      = Except.ok (yahooFetchResult demoYfEnv "AAPL") :=
  ⟨rfl,
   gcs_and_fundamentals_error_sentinels.2.1 demoFailGCSState
     (some "Fundamentals/") true PyErr.other rfl,
   by decide,
   rfl,
   (gcs_and_fundamentals_error_sentinels.2.2.2 demoYfEnv none "AAPL" true
     false (by decide) rfl).1⟩

/-!
### `Market._format_response_from_df` (Yahoo and Naver)

The two formatters (in `src/utils/yahoofinance.py` and
`src/utils/naverfinance.py`) are textually near-identical in their
numeric core.  A price row carries a sortable date key and rational
`close`/`volume` values (the claims concern the guarded divisions;
IEEE-float NaN cells are outside this rational model, and Python's
banker's rounding differs from the rounding modelled here only at ties,
which the zero-valued claims never reach).  The frame is modelled after
the column normalization both methods perform first (`date`/`close`/
`volume` columns present). -/

structure PriceRow where
  date : Int
  close : ℚ
  volume : ℚ
deriving DecidableEq

instance : Inhabited PriceRow := ⟨⟨0, 0, 0⟩⟩

/-- `df.sort_values(by='date', ascending=False)` as an insertion sort. -/
def insertByDateDesc (r : PriceRow) : List PriceRow → List PriceRow
  | [] => [r]
  | x :: xs =>
    if r.date ≥ x.date then r :: x :: xs else x :: insertByDateDesc r xs

def sortByDateDesc (rows : List PriceRow) : List PriceRow :=
  rows.foldr insertByDateDesc []

/-- `round(x, 2)`. -/
def pyRound2 (q : ℚ) : ℚ := ((round (q * 100) : ℤ) : ℚ) / 100

/-- The response dict both formatters build. -/
structure MarketResponse where
  name : String
  source : String
  currentPriceValue : ℚ
  currentPriceChangePercent : ℚ
  volumeValue : ℚ
  volumeChangePercent : ℚ
  marketCapValue : ℚ
  priceHistory : List (Int × ℚ)
  volumeHistory : List (Int × ℚ)

/-- The empty response returned for a missing or empty frame. -/
def emptyMarketResponse (company_name source : String) (market_cap : ℚ) :
    MarketResponse :=
  { name := company_name, source := source, currentPriceValue := 0,
    currentPriceChangePercent := 0, volumeValue := 0,
    volumeChangePercent := 0, marketCapValue := market_cap,
    priceHistory := [], volumeHistory := [] }

/-- `Market._format_response_from_df` of `src/utils/yahoofinance.py`:
`name` from `ticker_info.get('shortName', company)`, market cap from
`ticker_info.get('marketCap', 0)`; sort newest first; `previous` is the
second row when there is one, else the latest; both change percentages
guard their division by a zero test on the previous row's value. -/
def Market._format_response_from_df (df : Option (List PriceRow))
    (shortName : Option String) (marketCap : ℚ) (company : String) :
    MarketResponse :=
  let company_name := shortName.getD company
  match df with
  | none => emptyMarketResponse company_name "yahoo" marketCap
  | some rows =>
    if rows.isEmpty then emptyMarketResponse company_name "yahoo" marketCap
    else
      let sorted := sortByDateDesc rows
      let latest := sorted.headI
      let previous := (sorted[1]?).getD latest
      let price_change_percent :=
        if previous.close ≠ 0 then
          ((latest.close - previous.close) / previous.close) * 100
        else 0
      let volume_change_percent :=
        if previous.volume ≠ 0 then
          ((latest.volume - previous.volume) / previous.volume) * 100
        else 0
      { name := company_name, source := "yahoo",
        currentPriceValue := latest.close,
        currentPriceChangePercent := pyRound2 price_change_percent,
        volumeValue := latest.volume,
        volumeChangePercent := pyRound2 volume_change_percent,
        marketCapValue := marketCap,
        priceHistory := sorted.map (fun r => (r.date, r.close)),
        volumeHistory := sorted.map (fun r => (r.date, r.volume)) }

/-- `Market._format_response_from_df` of `src/utils/naverfinance.py`:
same numeric core; `name` is the resolved company name and the market
cap comes from `_get_market_cap`. -/
def NaverMarket._format_response_from_df (df : Option (List PriceRow))
    (company_name : String) (market_cap : ℚ) : MarketResponse :=
  match df with
  | none => emptyMarketResponse company_name "naver" market_cap
  | some rows =>
    if rows.isEmpty then emptyMarketResponse company_name "naver" market_cap
    else
      let sorted := sortByDateDesc rows
      let latest := sorted.headI
      let previous := (sorted[1]?).getD latest
      let price_change_percent :=
        if previous.close ≠ 0 then
          ((latest.close - previous.close) / previous.close) * 100
        else 0
      let volume_change_percent :=
        if previous.volume ≠ 0 then
          ((latest.volume - previous.volume) / previous.volume) * 100
        else 0
      { name := company_name, source := "naver",
        currentPriceValue := latest.close,
        currentPriceChangePercent := pyRound2 price_change_percent,
        volumeValue := latest.volume,
        volumeChangePercent := pyRound2 volume_change_percent,
        marketCapValue := market_cap,
        priceHistory := sorted.map (fun r => (r.date, r.close)),
        volumeHistory := sorted.map (fun r => (r.date, r.volume)) }

theorem pyRound2_zero : pyRound2 0 = 0 := by
  unfold pyRound2
  norm_num

/-- The guarded change-percent expression is zero whenever its
denominator is zero or the numerator cancels. -/
theorem changePercent_zero (l p : ℚ) (h : p = 0 ∨ l = p) :
    pyRound2 (if p ≠ 0 then ((l - p) / p) * 100 else 0) = 0 := by
  rcases h with h | h
  · rw [if_neg (by simp [h])]
    exact pyRound2_zero
  · by_cases hp : p ≠ 0
    · rw [if_pos hp, h]
      simp [pyRound2_zero]
    · rw [if_neg hp]
      exact pyRound2_zero

theorem yahooFormat_fields (rows : List PriceRow) (hne : rows ≠ [])
    (shortName : Option String) (marketCap : ℚ) (company : String) :
    (Market._format_response_from_df (some rows) shortName marketCap
        company).currentPriceChangePercent
      = pyRound2 (if ((sortByDateDesc rows)[1]?.getD
            (sortByDateDesc rows).headI).close ≠ 0 then
          (((sortByDateDesc rows).headI.close -
            ((sortByDateDesc rows)[1]?.getD (sortByDateDesc rows).headI).close)
            / ((sortByDateDesc rows)[1]?.getD
                (sortByDateDesc rows).headI).close) * 100
        else 0)
    ∧ (Market._format_response_from_df (some rows) shortName marketCap
        company).volumeChangePercent
      = pyRound2 (if ((sortByDateDesc rows)[1]?.getD
            (sortByDateDesc rows).headI).volume ≠ 0 then
          (((sortByDateDesc rows).headI.volume -
            ((sortByDateDesc rows)[1]?.getD (sortByDateDesc rows).headI).volume)
            / ((sortByDateDesc rows)[1]?.getD
                (sortByDateDesc rows).headI).volume) * 100
        else 0) := by
  have hemp : rows.isEmpty = false := by
    cases rows with
    | nil => exact absurd rfl hne
    | cons a l => rfl
  simp only [Market._format_response_from_df]
  rw [hemp]
  exact ⟨rfl, rfl⟩

theorem naverFormat_fields (rows : List PriceRow) (hne : rows ≠ [])
    (company_name : String) (market_cap : ℚ) :
    (NaverMarket._format_response_from_df (some rows) company_name
        market_cap).currentPriceChangePercent
      = pyRound2 (if ((sortByDateDesc rows)[1]?.getD
            (sortByDateDesc rows).headI).close ≠ 0 then
          (((sortByDateDesc rows).headI.close -
            ((sortByDateDesc rows)[1]?.getD (sortByDateDesc rows).headI).close)
            / ((sortByDateDesc rows)[1]?.getD
                (sortByDateDesc rows).headI).close) * 100
        else 0)
    ∧ (NaverMarket._format_response_from_df (some rows) company_name
        market_cap).volumeChangePercent
      = pyRound2 (if ((sortByDateDesc rows)[1]?.getD
            (sortByDateDesc rows).headI).volume ≠ 0 then
          (((sortByDateDesc rows).headI.volume -
            ((sortByDateDesc rows)[1]?.getD (sortByDateDesc rows).headI).volume)
            / ((sortByDateDesc rows)[1]?.getD
                (sortByDateDesc rows).headI).volume) * 100
        else 0) := by
  have hemp : rows.isEmpty = false := by
    cases rows with
    | nil => exact absurd rfl hne
    | cons a l => rfl
  simp only [NaverMarket._format_response_from_df]
  rw [hemp]
  exact ⟨rfl, rfl⟩

/-- C10: the market-response formatters never divide by zero.  In both
implementations, for every non-empty frame the price (respectively
volume) change percent is 0 whenever the previous row's close
(respectively volume) is 0, and a single-row frame takes the previous
row to be the latest row, making both change percentages 0; the division
is evaluated only under the non-zero guard. -/
theorem market_formatters_no_div_by_zero (rows : List PriceRow)
    (hne : rows ≠ []) (shortName : Option String) (marketCapY : ℚ)
    (company : String) (company_name : String) (marketCapN : ℚ) :
    (((sortByDateDesc rows)[1]?.getD (sortByDateDesc rows).headI).close = 0 →
      (Market._format_response_from_df (some rows) shortName marketCapY
        company).currentPriceChangePercent = 0
      ∧ (NaverMarket._format_response_from_df (some rows) company_name
        marketCapN).currentPriceChangePercent = 0)
    ∧ (((sortByDateDesc rows)[1]?.getD (sortByDateDesc rows).headI).volume
        = 0 →
      (Market._format_response_from_df (some rows) shortName marketCapY
        company).volumeChangePercent = 0
      ∧ (NaverMarket._format_response_from_df (some rows) company_name
        marketCapN).volumeChangePercent = 0)
    ∧ (rows.length = 1 →
      (Market._format_response_from_df (some rows) shortName marketCapY
        company).currentPriceChangePercent = 0
      ∧ (Market._format_response_from_df (some rows) shortName marketCapY
        company).volumeChangePercent = 0
      ∧ (NaverMarket._format_response_from_df (some rows) company_name
        marketCapN).currentPriceChangePercent = 0
      ∧ (NaverMarket._format_response_from_df (some rows) company_name
        marketCapN).volumeChangePercent = 0) := by
  obtain ⟨hy1, hy2⟩ := yahooFormat_fields rows hne shortName marketCapY company
  obtain ⟨hn1, hn2⟩ := naverFormat_fields rows hne company_name marketCapN
  refine ⟨?_, ?_, ?_⟩
  · intro hz
    rw [hy1, hn1]
    exact ⟨changePercent_zero _ _ (Or.inl hz),
      changePercent_zero _ _ (Or.inl hz)⟩
  · intro hz
    rw [hy2, hn2]
    exact ⟨changePercent_zero _ _ (Or.inl hz),
      changePercent_zero _ _ (Or.inl hz)⟩
  · intro hlen
    obtain ⟨r, hr⟩ : ∃ r, rows = [r] := by
      cases rows with
      | nil => cases hlen
      | cons a l =>
        cases l with
        | nil => exact ⟨a, rfl⟩
        | cons b t => simp at hlen
    subst hr
    have hsort : sortByDateDesc [r] = [r] := rfl
    have hprev : ((sortByDateDesc [r])[1]?.getD (sortByDateDesc [r]).headI)
        = r := by rw [hsort]; rfl
    have hlat : (sortByDateDesc [r]).headI = r := by rw [hsort]; rfl
    rw [hy1, hy2, hn1, hn2, hprev, hlat]
    refine ⟨?_, ?_, ?_, ?_⟩ <;> exact changePercent_zero _ _ (Or.inr rfl)

/-- Witness for C10: a single-row frame whose close and volume are
non-zero; both formatters report zero change percentages. -/
theorem market_formatters_no_div_by_zero_witness :
    ([(⟨1, 10, 100⟩ : PriceRow)] : List PriceRow) ≠ []
    ∧ ([(⟨1, 10, 100⟩ : PriceRow)] : List PriceRow).length = 1
    ∧ ((Market._format_response_from_df (some [⟨1, 10, 100⟩]) none 0
        "AAPL").currentPriceChangePercent = 0
      ∧ (Market._format_response_from_df (some [⟨1, 10, 100⟩]) none 0
        "AAPL").volumeChangePercent = 0
      ∧ (NaverMarket._format_response_from_df (some [⟨1, 10, 100⟩])
        "삼성전자" 0).currentPriceChangePercent = 0
      ∧ (NaverMarket._format_response_from_df (some [⟨1, 10, 100⟩])
        "삼성전자" 0).volumeChangePercent = 0) :=
  ⟨by decide, by decide,
    (market_formatters_no_div_by_zero [⟨1, 10, 100⟩] (by decide) none 0
      "AAPL" "삼성전자" 0).2.2 (by decide)⟩
